import Mathlib

/-!
# AMD IBS reader: bit-field decoder and ring-buffer drain

A shallow embedding of `AMD_IBS_Reader/data_src_decoder.c` and of the drain
loop of `AMD_IBS_Reader/ibs_reader.c`.

* `uint64_t` values are natural numbers; the decoder only shifts right and
  masks, so no reduction modulo `2 ^ 64` is needed there.
* A C string is the list of its characters before the terminating NUL.
* `if (x & MASK)` is `x &&& MASK ≠ 0`.
-/

namespace IBS

/-! ## Constants of `data_src_decoder.c` (lines 9-51) -/

def PERF_MEM_OP_SHIFT : Nat := 0
def PERF_MEM_LVL_SHIFT : Nat := 5
def PERF_MEM_SNP_SHIFT : Nat := 19
def PERF_MEM_TLB_SHIFT : Nat := 26
def PERF_MEM_LCK_SHIFT : Nat := 32
def PERF_MEM_BLK_SHIFT : Nat := 40

def PERF_MEM_OP_NA : Nat := 0x01
def PERF_MEM_OP_LOAD : Nat := 0x02
def PERF_MEM_OP_STORE : Nat := 0x04
def PERF_MEM_OP_PFETCH : Nat := 0x08
def PERF_MEM_OP_EXEC : Nat := 0x10

def PERF_MEM_LVL_NA : Nat := 0x01
def PERF_MEM_LVL_HIT : Nat := 0x02
def PERF_MEM_LVL_MISS : Nat := 0x04
def PERF_MEM_LVL_L1 : Nat := 0x08

def PERF_MEM_TLB_NA : Nat := 0x01
def PERF_MEM_TLB_HIT : Nat := 0x02
def PERF_MEM_TLB_MISS : Nat := 0x04
def PERF_MEM_TLB_L1 : Nat := 0x08
def PERF_MEM_TLB_L2 : Nat := 0x10
def PERF_MEM_TLB_WK : Nat := 0x20

def PERF_MEM_BLK_NA : Nat := 0x01
def PERF_MEM_BLK_DATA : Nat := 0x02
def PERF_MEM_BLK_ADDR : Nat := 0x04

/-! ## Constants the decoder takes from `<linux/perf_event.h>`

The file includes the kernel header and uses these names without defining
them; the values are those of the Linux UAPI header. -/

def PERF_MEM_LVL_LFB : Nat := 0x10
def PERF_MEM_LVL_L2 : Nat := 0x20
def PERF_MEM_LVL_L3 : Nat := 0x40
def PERF_MEM_LVL_LOC_RAM : Nat := 0x80
def PERF_MEM_LVL_REM_RAM1 : Nat := 0x100
def PERF_MEM_LVL_REM_RAM2 : Nat := 0x200
def PERF_MEM_LVL_REM_CCE1 : Nat := 0x400
def PERF_MEM_LVL_REM_CCE2 : Nat := 0x800
def PERF_MEM_LVL_IO : Nat := 0x1000
def PERF_MEM_LVL_UNC : Nat := 0x2000

def PERF_MEM_SNOOP_SHIFT : Nat := 19
def PERF_MEM_SNOOP_NA : Nat := 0x01
def PERF_MEM_SNOOP_NONE : Nat := 0x02
def PERF_MEM_SNOOP_HIT : Nat := 0x04
def PERF_MEM_SNOOP_MISS : Nat := 0x08
def PERF_MEM_SNOOP_HITM : Nat := 0x10

def PERF_MEM_LOCK_SHIFT : Nat := 24
def PERF_MEM_LOCK_NA : Nat := 0x01
def PERF_MEM_LOCK_LOCKED : Nat := 0x02

def PERF_MEM_TLB_OS : Nat := 0x40

/-! ## Field extraction macros (lines 54-59) -/

def PERF_MEM_OP (x : Nat) : Nat := (x >>> PERF_MEM_OP_SHIFT) &&& 0x1f
def PERF_MEM_LVL (x : Nat) : Nat := (x >>> PERF_MEM_LVL_SHIFT) &&& 0x3fff
def PERF_MEM_SNP (x : Nat) : Nat := (x >>> PERF_MEM_SNP_SHIFT) &&& 0x7f
def PERF_MEM_TLB (x : Nat) : Nat := (x >>> PERF_MEM_TLB_SHIFT) &&& 0x3f
def PERF_MEM_LCK (x : Nat) : Nat := (x >>> PERF_MEM_LCK_SHIFT) &&& 0xff
def PERF_MEM_BLK (x : Nat) : Nat := (x >>> PERF_MEM_BLK_SHIFT) &&& 0xff

/-! ## Derived predicates (lines 61-77) -/

/-- The C truth value of `(lvl & cache_level) && (lvl & PERF_MEM_LVL_MISS)`. -/
def is_cache_miss (data_src cache_level : Nat) : Nat :=
  let lvl := PERF_MEM_LVL data_src
  if lvl &&& cache_level ≠ 0 ∧ lvl &&& PERF_MEM_LVL_MISS ≠ 0 then 1 else 0

/-- The value `tlb & PERF_MEM_TLB_MISS`. -/
def is_tlb_miss (data_src : Nat) : Nat :=
  PERF_MEM_TLB data_src &&& PERF_MEM_TLB_MISS

/-! ## Token helpers of the verbose decoder (lines 79-85, 148-157) -/

def decode_mem_op (op : Nat) : List Char :=
  if op &&& PERF_MEM_OP_LOAD ≠ 0 then "LOAD".toList
  else if op &&& PERF_MEM_OP_STORE ≠ 0 then "STORE".toList
  else if op &&& PERF_MEM_OP_PFETCH ≠ 0 then "PFETCH".toList
  else if op &&& PERF_MEM_OP_EXEC ≠ 0 then "EXEC".toList
  else "N/A".toList

def decode_mem_blk (blk : Nat) : List Char :=
  if blk &&& PERF_MEM_BLK_DATA ≠ 0 then "DATA".toList
  else if blk &&& PERF_MEM_BLK_ADDR ≠ 0 then "ADDR".toList
  else "N/A".toList

/-! ## `snprintf` into the caller's buffer -/

/-- The output side of `get_data_src_decode_str`: `out` is the C string held
by the buffer, `n` the running offset, and `wrapped` records whether some call
was made with `n > out_sz`, where the `size_t` difference `out_sz - n` wraps
around and the call writes outside the buffer. -/
structure DecBuf where
  out : List Char
  n : Nat
  wrapped : Bool
  deriving DecidableEq, Repr

/-- One `n += snprintf(out + n, out_sz - n, ...)` whose formatted text is `s`.
With `n < out_sz` the call stores at most `out_sz - n - 1` characters at
offset `n` and a NUL; with `n = out_sz` it stores nothing; with `n > out_sz`
it writes past the buffer and leaves the buffer itself as it was. The return
value is always the full length of `s`. -/
def snprintf (out_sz : Nat) (b : DecBuf) (s : List Char) : DecBuf :=
  { out := if b.n < out_sz then b.out.take b.n ++ s.take (out_sz - b.n - 1) else b.out
    n := b.n + s.length
    wrapped := b.wrapped || decide (out_sz < b.n) }

/-! ## The canonical line decoder (lines 177-250) -/

/-- Lines 187-191. -/
def op_str (op : Nat) : List Char :=
  if op &&& PERF_MEM_OP_LOAD ≠ 0 then "LOAD".toList
  else if op &&& PERF_MEM_OP_STORE ≠ 0 then "STORE".toList
  else if op &&& PERF_MEM_OP_PFETCH ≠ 0 then "PFETCH".toList
  else if op &&& PERF_MEM_OP_EXEC ≠ 0 then "EXEC".toList
  else "N/A".toList

/-- Lines 196-209. -/
def lvl_str (lvl : Nat) : List Char :=
  if lvl &&& PERF_MEM_LVL_NA = 0 then
    if lvl &&& PERF_MEM_LVL_L1 ≠ 0 then "L1".toList
    else if lvl &&& PERF_MEM_LVL_L2 ≠ 0 then "L2".toList
    else if lvl &&& PERF_MEM_LVL_L3 ≠ 0 then "L3".toList
    else if lvl &&& PERF_MEM_LVL_LFB ≠ 0 then "LFB".toList
    else if lvl &&& PERF_MEM_LVL_LOC_RAM ≠ 0 then "RAM".toList
    else if lvl &&& PERF_MEM_LVL_REM_RAM1 ≠ 0 then "Remote RAM (1 hop)".toList
    else if lvl &&& PERF_MEM_LVL_REM_RAM2 ≠ 0 then "Remote RAM (2 hops)".toList
    else if lvl &&& PERF_MEM_LVL_REM_CCE1 ≠ 0 then "Remote Cache (1 hop)".toList
    else if lvl &&& PERF_MEM_LVL_REM_CCE2 ≠ 0 then "Remote Cache (2 hops)".toList
    else if lvl &&& PERF_MEM_LVL_IO ≠ 0 then "IO".toList
    else if lvl &&& PERF_MEM_LVL_UNC ≠ 0 then "Uncached".toList
    else "N/A".toList
  else "N/A".toList

/-- Lines 218-224. -/
def snp_str (snp : Nat) : List Char :=
  if snp &&& PERF_MEM_SNOOP_NA = 0 then
    if snp &&& PERF_MEM_SNOOP_NONE ≠ 0 then "None".toList
    else if snp &&& PERF_MEM_SNOOP_HIT ≠ 0 then "Hit".toList
    else if snp &&& PERF_MEM_SNOOP_MISS ≠ 0 then "Miss".toList
    else if snp &&& PERF_MEM_SNOOP_HITM ≠ 0 then "HitM".toList
    else "N/A".toList
  else "N/A".toList

/-- Lines 228-234. -/
def tlb_lvl (tlb : Nat) : List Char :=
  if tlb &&& PERF_MEM_TLB_NA = 0 then
    if tlb &&& PERF_MEM_TLB_L1 ≠ 0 then "L1".toList
    else if tlb &&& PERF_MEM_TLB_L2 ≠ 0 then "L2".toList
    else if tlb &&& PERF_MEM_TLB_WK ≠ 0 then "HW walk".toList
    else if tlb &&& PERF_MEM_TLB_OS ≠ 0 then "OS fault".toList
    else "N/A".toList
  else "N/A".toList

/-- Lines 242-245. -/
def lck_str (lck : Nat) : List Char :=
  if lck &&& PERF_MEM_LOCK_NA = 0 then
    (if lck &&& PERF_MEM_LOCK_LOCKED ≠ 0 then "LOCKED".toList else "No".toList)
  else "N/A".toList

/-- Lines 211-214 and 236-239: the two independent suffix calls, made only
when the not-available bit `na` of the sub-field `x` is clear. -/
def hit_miss (out_sz : Nat) (x na hit miss : Nat) (b : DecBuf) : DecBuf :=
  if x &&& na = 0 then
    let b1 := if x &&& hit ≠ 0 then snprintf out_sz b " hit".toList else b
    if x &&& miss ≠ 0 then snprintf out_sz b1 " miss".toList else b1
  else b

/-- The function `get_data_src_decode_str(v, out, out_sz)`: the sequence of
`snprintf` calls of lines 192-249 on an initially empty buffer. -/
def get_data_src_decode_str (v out_sz : Nat) : DecBuf :=
  let op := (v >>> PERF_MEM_OP_SHIFT) &&& 0x1F
  let lvl := (v >>> PERF_MEM_LVL_SHIFT) &&& 0x3FFF
  let snp := (v >>> PERF_MEM_SNOOP_SHIFT) &&& 0x1F
  let lck := (v >>> PERF_MEM_LOCK_SHIFT) &&& 0x3
  let tlb := (v >>> PERF_MEM_TLB_SHIFT) &&& 0x7F
  let b0 : DecBuf := { out := [], n := 0, wrapped := false }
  let b1 := snprintf out_sz b0 ("OP ".toList ++ op_str op ++ "|".toList)
  let b2 := snprintf out_sz b1 ("LVL ".toList ++ lvl_str lvl)
  let b3 := hit_miss out_sz lvl PERF_MEM_LVL_NA PERF_MEM_LVL_HIT PERF_MEM_LVL_MISS b2
  let b4 := snprintf out_sz b3 "|".toList
  let b5 := snprintf out_sz b4 ("SNP ".toList ++ snp_str snp ++ "|".toList)
  let b6 := snprintf out_sz b5 ("TLB ".toList ++ tlb_lvl tlb)
  let b7 := hit_miss out_sz tlb PERF_MEM_TLB_NA PERF_MEM_TLB_HIT PERF_MEM_TLB_MISS b6
  let b8 := snprintf out_sz b7 "|".toList
  let b9 := snprintf out_sz b8 ("LCK ".toList ++ lck_str lck ++ "|".toList)
  snprintf out_sz b9 "BLK N/A".toList

/-- The description a caller reads back from the buffer. -/
def description (v out_sz : Nat) : List Char :=
  (get_data_src_decode_str v out_sz).out

/-- The pieces of a description between its `|` separators, in order. -/
def fields : List Char → List (List Char)
  | [] => [[]]
  | c :: cs =>
    if c = '|' then [] :: fields cs
    else
      match fields cs with
      | [] => [[c]]
      | s :: ss => (c :: s) :: ss

/-! ## The drain loop of `ibs_reader.c` (lines 86-178)

Memory is a function from byte offsets to bytes, read little-endian as on the
x86 machines that have IBS. The ring data region is the offsets below
`ring_sz`; `data` also answers for offsets past the region, which is where a
read that runs off the end of the region lands. -/

def RING_PAGES : Nat := 8

def SCRATCH_SZ : Nat := 4096

/-- The record kind `PERF_RECORD_SAMPLE` of `<linux/perf_event.h>`. -/
def PERF_RECORD_SAMPLE : Nat := 9

/-- The size of `struct perf_event_header` of `<linux/perf_event.h>`, whose
members are `__u32 type; __u16 misc; __u16 size;`. -/
def HEADER_SZ : Nat := 8

/-- Bytes addressed from a base pointer. -/
abbrev Mem := Nat → Nat

def rd8 (m : Mem) (p : Nat) : Nat := m p % 256

def rd16 (m : Mem) (p : Nat) : Nat := rd8 m p + 256 * rd8 m (p + 1)

def rd32 (m : Mem) (p : Nat) : Nat := rd16 m p + 65536 * rd16 m (p + 2)

def rd64 (m : Mem) (p : Nat) : Nat := rd32 m p + 4294967296 * rd32 m (p + 4)

/-- The member `h->type`. -/
def hdr_type (h : Mem) : Nat := rd32 h 0

/-- The member `h->size`. -/
def hdr_size (h : Mem) : Nat := rd16 h 6

/-- The call `memcpy(dst + d, src + s, n)`. -/
def memcpy (dst : Mem) (d : Nat) (src : Mem) (s n : Nat) : Mem :=
  fun i => if d ≤ i ∧ i < d + n then src (s + (i - d)) else dst i

/-- The pointer `base + off`. -/
def offset (base : Mem) (off : Nat) : Mem := fun i => base (off + i)

/-- The size `ring_sz = RING_PAGES * pg` for the page size `pg`. -/
def ring_sz (pg : Nat) : Nat := RING_PAGES * pg

/-- One line written to the CSV stream by the `fprintf` of lines 152-160, as
its arguments in order. -/
structure CsvLine where
  ts : Nat
  pid : Nat
  tid : Nat
  cpu : Nat
  ip : Nat
  lin_addr : Nat
  phys_addr : Nat
  data_src : Nat
  decode_str : List Char
  deriving DecidableEq, Repr

/-- What a worker's loop reads and writes: the consumer cursor
`meta->data_tail`, the scratch buffer, the process-wide flag `running`, the
lines written to the CSV stream and the sizes reported on `stderr`. -/
structure Worker where
  data_tail : Nat
  scratch : Mem
  running : Nat
  csv : List CsvLine
  err : List Nat

/-- The macro `NEXT(uint64_t)` on the cursor `raw` into the record at `h`: the
value read and the advanced cursor. -/
def NEXT (h : Mem) (raw : Nat) : Nat × Nat := (rd64 h raw, raw + 8)

/-- Lines 124-160: the line printed for a record of kind SAMPLE at `h`. The
locals `dc_miss`, `l2_miss`, `l3_miss` and `tlb_miss` of lines 142-145 are
computed and never used, so they leave no trace here. -/
def sample_line (h : Mem) : CsvLine :=
  let raw := HEADER_SZ
  let (ip, raw) := NEXT h raw
  let (pid_tid, raw) := NEXT h raw
  let (ts, raw) := NEXT h raw
  let (lin_addr, raw) := NEXT h raw
  let (_id, raw) := NEXT h raw
  let (cpu_res, raw) := NEXT h raw
  let (data_src, raw) := NEXT h raw
  let (phys_addr, _) := NEXT h raw
  let pid := (pid_tid &&& 0xffffffff) % 2 ^ 32
  let tid := (pid_tid >>> 32) % 2 ^ 32
  let cpu := (cpu_res &&& 0xffffffff) % 2 ^ 32
  let phys_addr := phys_addr &&& (2 ^ 52 - 1)
  { ts := ts, pid := pid, tid := tid, cpu := cpu, ip := ip, lin_addr := lin_addr,
    phys_addr := phys_addr, data_src := data_src,
    decode_str := description data_src 128 }

/-- Lines 107-121: where the record of one iteration is read from. Either the
record is reported as too large, or `h` points at it and `scratch` is the
scratch buffer after the iteration's copies. -/
inductive Located where
  | too_large (size : Nat)
  | record (h : Mem) (scratch : Mem)

def locate (pg : Nat) (data : Mem) (scratch : Mem) (data_tail : Nat) : Located :=
  let mask := ring_sz pg - 1
  let tail := data_tail &&& mask
  let h := offset data tail
  if tail + hdr_size h > ring_sz pg then
    let first := ring_sz pg - tail
    if hdr_size h > SCRATCH_SZ then .too_large (hdr_size h)
    else
      let s1 := memcpy scratch 0 data tail first
      let s2 := memcpy s1 first data 0 (hdr_size h - first)
      .record s2 s2
  else .record h scratch

/-- Lines 123-167: the record at `h` is printed when it is a SAMPLE, and the
cursor advances by `h->size` in 64-bit arithmetic. The diagnostic print of
lines 162-165 goes to the standard output and changes none of this state. -/
def consume (h : Mem) (w : Worker) : Worker :=
  let csv := if hdr_type h = PERF_RECORD_SAMPLE then w.csv ++ [sample_line h] else w.csv
  { w with csv := csv, data_tail := (w.data_tail + hdr_size h) % 2 ^ 64 }

/-- How one iteration of the inner loop leaves it. -/
inductive Step where
  | next (w : Worker)
  | brk (w : Worker)

/-- One iteration of the inner loop, lines 107-167. -/
def drain_iter (pg : Nat) (data : Mem) (w : Worker) : Step :=
  match locate pg data w.scratch w.data_tail with
  | .too_large size => .brk { w with err := w.err ++ [size], running := 0 }
  | .record h scratch => .next (consume h { w with scratch := scratch })

/-- The inner loop `while (meta->data_tail != head)` of lines 106-168, run for
at most `fuel` iterations. The result is the state the loop ends in and, for
every completed iteration, the cursor before and after it; `none` when the
fuel runs out first. -/
def drain (pg : Nat) (data : Mem) (head : Nat) : Nat → Worker → Option (Worker × List (Nat × Nat))
  | 0, w => if w.data_tail = head then some (w, []) else none
  | fuel + 1, w =>
    if w.data_tail = head then some (w, [])
    else
      match drain_iter pg data w with
      | .brk w1 => some (w1, [])
      | .next w1 =>
        match drain pg data head fuel w1 with
        | some (w2, log) => some (w2, (w.data_tail, w1.data_tail) :: log)
        | none => none

/-- The outer loop `while (running)` of lines 103-176, over the successive
snapshots the worker takes: the value of `meta->data_head` read at line 104 and
the ring contents during the drain that follows. The flush and the sleep of
lines 171-175 change none of this state. The result is the state in which the
loop test fails, or the state after the last listed snapshot; `none` when an
inner loop runs out of fuel. -/
def cpu_loop (pg fuel : Nat) : List (Nat × Mem) → Worker → Option Worker
  | [], w => some w
  | (head, data) :: rest, w =>
    if w.running ≠ 0 then
      match drain pg data head fuel w with
      | some (w1, _) => cpu_loop pg fuel rest w1
      | none => none
    else some w

/-- The flag `running` is one static variable of the process (line 50), read by
the loop test of every worker thread: the state of another worker once the
value left by worker `after` is the one it reads. -/
def share (after other : Worker) : Worker := { other with running := after.running }

/-! ## Derived definitions used to state the properties -/

/-- The text after the token of a level or TLB sub-field: the suffixes added
by `hit_miss`. -/
def suffix_of (x na hit miss : Nat) : List Char :=
  if x &&& na = 0 then
    (if x &&& hit ≠ 0 then " hit".toList else []) ++
      (if x &&& miss ≠ 0 then " miss".toList else [])
  else []

/-! ### The six tokens and segments the decoder prints -/

def op_token (v : Nat) : List Char :=
  op_str ((v >>> PERF_MEM_OP_SHIFT) &&& 0x1F)

def lvl_token (v : Nat) : List Char :=
  lvl_str ((v >>> PERF_MEM_LVL_SHIFT) &&& 0x3FFF) ++
    suffix_of ((v >>> PERF_MEM_LVL_SHIFT) &&& 0x3FFF)
      PERF_MEM_LVL_NA PERF_MEM_LVL_HIT PERF_MEM_LVL_MISS

def snp_token (v : Nat) : List Char :=
  snp_str ((v >>> PERF_MEM_SNOOP_SHIFT) &&& 0x1F)

def tlb_token (v : Nat) : List Char :=
  tlb_lvl ((v >>> PERF_MEM_TLB_SHIFT) &&& 0x7F) ++
    suffix_of ((v >>> PERF_MEM_TLB_SHIFT) &&& 0x7F)
      PERF_MEM_TLB_NA PERF_MEM_TLB_HIT PERF_MEM_TLB_MISS

def lck_token (v : Nat) : List Char :=
  lck_str ((v >>> PERF_MEM_LOCK_SHIFT) &&& 0x3)

/-- The block token of line 249, a literal of the format string. -/
def blk_token : List Char := "N/A".toList

def op_segment (v : Nat) : List Char := "OP ".toList ++ op_token v

def lvl_segment (v : Nat) : List Char := "LVL ".toList ++ lvl_token v

def snp_segment (v : Nat) : List Char := "SNP ".toList ++ snp_token v

def tlb_segment (v : Nat) : List Char := "TLB ".toList ++ tlb_token v

def lck_segment (v : Nat) : List Char := "LCK ".toList ++ lck_token v

def blk_segment : List Char := "BLK ".toList ++ blk_token

/-- The untruncated text of the six segments, in the order of the calls. -/
def full_text (v : Nat) : List Char :=
  op_segment v ++ '|' :: (lvl_segment v ++ '|' :: (snp_segment v ++ '|' ::
    (tlb_segment v ++ '|' :: (lck_segment v ++ '|' :: blk_segment))))

/-- The token of the first entry of a priority table whose bit is set in `x`,
and `dflt` when no entry matches. -/
def first_set (table : List (Nat × String)) (x : Nat) (dflt : String) : List Char :=
  match table.find? (fun e => decide (x &&& e.1 ≠ 0)) with
  | some e => e.2.toList
  | none => dflt.toList

/-- The level priority order as the specification lists it. -/
def lvl_priority : List (Nat × String) :=
  [(0x08, "L1"), (0x20, "L2"), (0x40, "L3"), (0x10, "LFB"), (0x80, "RAM"),
   (0x100, "Remote RAM (1 hop)"), (0x200, "Remote RAM (2 hops)"),
   (0x400, "Remote Cache (1 hop)"), (0x800, "Remote Cache (2 hops)"),
   (0x1000, "IO"), (0x2000, "Uncached")]

/-- The LVL segment as the specification words it, for a level sub-field. -/
def stated_lvl_segment (lvl : Nat) : List Char :=
  if lvl &&& 0x01 ≠ 0 then "LVL N/A".toList
  else
    "LVL ".toList ++ first_set lvl_priority lvl "N/A" ++
      (if lvl &&& 0x02 ≠ 0 then " hit".toList else []) ++
      (if lvl &&& 0x04 ≠ 0 then " miss".toList else [])

/-- The TLB priority order as the specification lists it. -/
def tlb_priority : List (Nat × String) :=
  [(0x08, "L1"), (0x10, "L2"), (0x20, "HW walk"), (0x40, "OS fault")]

/-- The TLB segment as the specification words it, for a TLB sub-field. -/
def stated_tlb_segment (tlb : Nat) : List Char :=
  if tlb &&& 0x01 ≠ 0 then "TLB N/A".toList
  else
    "TLB ".toList ++ first_set tlb_priority tlb "N/A" ++
      (if tlb &&& 0x02 ≠ 0 then " hit".toList else []) ++
      (if tlb &&& 0x04 ≠ 0 then " miss".toList else [])

/-- The snoop priority order as the specification lists it. -/
def snp_priority : List (Nat × String) :=
  [(0x02, "None"), (0x04, "Hit"), (0x08, "Miss"), (0x10, "HitM")]

/-- The snoop token as the specification words it, for a snoop sub-field. -/
def stated_snp_token (snp : Nat) : List Char :=
  if snp &&& 0x01 ≠ 0 then "N/A".toList else first_set snp_priority snp "N/A"

/-- The operation priority order as the specification lists it. -/
def op_priority : List (Nat × String) :=
  [(0x02, "LOAD"), (0x04, "STORE"), (0x08, "PFETCH"), (0x10, "EXEC")]

/-- The bytes from cursor `tail` up to `head` are complete records: each has
its header inside the region at its ring offset, declares a length between the
header size and the scratch capacity, and ends at or before `head`. -/
inductive Records (pg : Nat) (data : Mem) (head : Nat) : Nat → Prop where
  | done : Records pg data head head
  | cons (tail : Nat) :
      tail % ring_sz pg + HEADER_SZ ≤ ring_sz pg →
      HEADER_SZ ≤ hdr_size (offset data (tail % ring_sz pg)) →
      hdr_size (offset data (tail % ring_sz pg)) ≤ SCRATCH_SZ →
      tail + hdr_size (offset data (tail % ring_sz pg)) ≤ head →
      Records pg data head (tail + hdr_size (offset data (tail % ring_sz pg))) →
      Records pg data head tail

/-- The record at cursor `tail` as an unsplit sequence of bytes: byte `i` is
the ring byte at offset `(tail mod N + i) mod N`. -/
def ring_view (pg : Nat) (data : Mem) (tail : Nat) : Mem :=
  fun i => data ((tail % ring_sz pg + i) % ring_sz pg)

/-- The length declared by the header at cursor `c`, as the loop reads it. -/
def rec_len (pg : Nat) (data : Mem) (c : Nat) : Nat :=
  hdr_size (offset data (c % ring_sz pg))

/-- A well-formed sample record starts at cursor `c`: its header lies inside
the region, its kind is SAMPLE, and its declared length holds the header and
the eight fields and is within the scratch capacity. -/
def sample_at (pg : Nat) (data : Mem) (c : Nat) : Prop :=
  c % ring_sz pg + HEADER_SZ ≤ ring_sz pg ∧
  hdr_type (offset data (c % ring_sz pg)) = PERF_RECORD_SAMPLE ∧
  HEADER_SZ + 64 ≤ rec_len pg data c ∧
  rec_len pg data c ≤ SCRATCH_SZ

/-- The ring holds `n` well-formed sample records in a row, from cursor `c` up
to cursor `c1`. -/
inductive Samples (pg : Nat) (data : Mem) : Nat → Nat → Nat → Prop where
  | nil (c : Nat) : Samples pg data 0 c c
  | cons (n c c1 : Nat) :
      sample_at pg data c →
      Samples pg data n (c + rec_len pg data c) c1 →
      Samples pg data (n + 1) c c1

/-- The 8-byte field at payload offset `8 * k` of the record at cursor `tail`,
read from the record's bytes in ring order. -/
def record_field (pg : Nat) (data : Mem) (tail k : Nat) : Nat :=
  rd64 (ring_view pg data tail) (HEADER_SZ + 8 * k)

/-! ### A sample ring used to instantiate the drain properties

With 4096-byte pages the region has 32768 bytes. A 16-byte record of kind 0
starts at offset 32760 and is split by the end of the region; a 72-byte SAMPLE
record follows at offset 8, with classification code 0x144. -/

def sample_ring : Mem := fun i =>
  if i = 32766 then 16 else if i = 8 then 9 else if i = 14 then 72
  else if i = 64 then 0x44 else if i = 65 then 1 else 0

def sample_worker (tail : Nat) : Worker :=
  { data_tail := tail, scratch := fun _ => 0, running := 1, csv := [], err := [] }

/-- Three 72-byte SAMPLE records at offsets 0, 72 and 144, then at offset 216 a
SAMPLE record that declares 5000 bytes and lies wholly inside the 32768-byte
region. -/
def oversized_inside_ring : Mem := fun i =>
  if i = 0 then 9 else if i = 6 then 72
  else if i = 72 then 9 else if i = 78 then 72
  else if i = 144 then 9 else if i = 150 then 72
  else if i = 216 then 9 else if i = 222 then 136 else if i = 223 then 19 else 0

/-- Three 72-byte SAMPLE records at offsets 29784, 29856 and 29928, then at
offset 30000 a record that declares 5000 bytes and crosses the end of the
32768-byte region. -/
def oversized_wrapping_ring : Mem := fun i =>
  if i = 29784 then 9 else if i = 29790 then 72
  else if i = 29856 then 9 else if i = 29862 then 72
  else if i = 29928 then 9 else if i = 29934 then 72
  else if i = 30000 then 9 else if i = 30006 then 136 else if i = 30007 then 19 else 0

/-- A SAMPLE record that declares 16 bytes, so a payload of 8, followed by
other bytes: the byte at offset 64 is 0x44. -/
def short_sample : Mem := fun i =>
  if i = 0 then 9 else if i = 6 then 16 else if i = 64 then 0x44 else 0

/-! ## Basic facts about the decoder -/

theorem snprintf_fit (out_sz : Nat) (b : DecBuf) (s : List Char)
    (hlen : b.out.length = b.n) (hw : b.wrapped = false)
    (hroom : b.n + s.length < out_sz) :
    snprintf out_sz b s = { out := b.out ++ s, n := b.n + s.length, wrapped := false } := by
  have h1 : b.n < out_sz := by omega
  have h2 : decide (out_sz < b.n) = false := decide_eq_false (by omega)
  have h3 : List.take b.n b.out = b.out := List.take_of_length_le (by omega)
  have h4 : List.take (out_sz - b.n - 1) s = s := List.take_of_length_le (by omega)
  unfold snprintf
  rw [if_pos h1, h3, h4, hw, h2]
  rfl

theorem ite_length_le {c : Prop} [Decidable c] {a b : List Char} {k : Nat}
    (ha : a.length ≤ k) (hb : b.length ≤ k) : (if c then a else b).length ≤ k := by
  split <;> assumption

theorem op_str_length (op : Nat) : (op_str op).length ≤ 6 := by
  unfold op_str
  repeat (first | exact (by decide) | apply ite_length_le)

theorem lvl_str_length (lvl : Nat) : (lvl_str lvl).length ≤ 21 := by
  unfold lvl_str
  repeat (first | exact (by decide) | apply ite_length_le)

theorem snp_str_length (snp : Nat) : (snp_str snp).length ≤ 4 := by
  unfold snp_str
  repeat (first | exact (by decide) | apply ite_length_le)

theorem tlb_lvl_length (tlb : Nat) : (tlb_lvl tlb).length ≤ 8 := by
  unfold tlb_lvl
  repeat (first | exact (by decide) | apply ite_length_le)

theorem lck_str_length (lck : Nat) : (lck_str lck).length ≤ 6 := by
  unfold lck_str
  repeat (first | exact (by decide) | apply ite_length_le)

theorem suffix_of_length (x na hit miss : Nat) : (suffix_of x na hit miss).length ≤ 9 := by
  unfold suffix_of
  by_cases hna : x &&& na = 0
  · rw [if_pos hna, List.length_append]
    have h1 : (if x &&& hit ≠ 0 then " hit".toList else []).length ≤ 4 :=
      ite_length_le (by decide) (by decide)
    have h2 : (if x &&& miss ≠ 0 then " miss".toList else []).length ≤ 5 :=
      ite_length_le (by decide) (by decide)
    omega
  · rw [if_neg hna]; decide

theorem hit_miss_fit (out_sz x na hit miss : Nat) (b : DecBuf)
    (hlen : b.out.length = b.n) (hw : b.wrapped = false) (hroom : b.n + 9 < out_sz) :
    hit_miss out_sz x na hit miss b =
      { out := b.out ++ suffix_of x na hit miss,
        n := b.n + (suffix_of x na hit miss).length, wrapped := false } := by
  obtain ⟨o, n, w⟩ := b
  simp only at hlen hw hroom
  subst hlen hw
  have e1 : snprintf out_sz ⟨o, o.length, false⟩ " hit".toList =
      ⟨o ++ " hit".toList, o.length + 4, false⟩ :=
    snprintf_fit _ _ _ rfl rfl (by simp; omega)
  have e2 : snprintf out_sz ⟨o, o.length, false⟩ " miss".toList =
      ⟨o ++ " miss".toList, o.length + 5, false⟩ :=
    snprintf_fit _ _ _ rfl rfl (by simp; omega)
  have e3 : snprintf out_sz ⟨o ++ " hit".toList, o.length + 4, false⟩ " miss".toList =
      ⟨o ++ " hit".toList ++ " miss".toList, o.length + 4 + 5, false⟩ :=
    snprintf_fit _ _ _ (by simp) rfl (by simp; omega)
  unfold hit_miss suffix_of
  by_cases hna : x &&& na = 0
  · by_cases hh : x &&& hit ≠ 0
    · by_cases hm : x &&& miss ≠ 0
      · rw [if_pos hna, if_pos hna, if_pos hh, if_pos hm, if_pos hh, if_pos hm, e1, e3]
        simp
      · rw [if_pos hna, if_pos hna, if_pos hh, if_neg hm, if_pos hh, if_neg hm, e1]
        simp
    · by_cases hm : x &&& miss ≠ 0
      · rw [if_pos hna, if_pos hna, if_neg hh, if_pos hm, if_neg hh, if_pos hm, e2]
        simp
      · rw [if_pos hna, if_pos hna, if_neg hh, if_neg hm, if_neg hh, if_neg hm]
        simp
  · rw [if_neg hna, if_neg hna]
    simp

theorem snprintf_canon (out_sz : Nat) (o s : List Char)
    (hroom : o.length + s.length < out_sz) :
    snprintf out_sz { out := o, n := o.length, wrapped := false } s =
      { out := o ++ s, n := (o ++ s).length, wrapped := false } := by
  rw [snprintf_fit out_sz _ s rfl rfl hroom, List.length_append]

theorem hit_miss_canon (out_sz x na hit miss : Nat) (o : List Char)
    (hroom : o.length + 9 < out_sz) :
    hit_miss out_sz x na hit miss { out := o, n := o.length, wrapped := false } =
      { out := o ++ suffix_of x na hit miss,
        n := (o ++ suffix_of x na hit miss).length, wrapped := false } := by
  rw [hit_miss_fit out_sz x na hit miss _ rfl rfl hroom, List.length_append]

/-- With room for 94 characters and the NUL, no call truncates: the buffer
ends up holding the whole text and the offset is its length. -/
theorem decode_fits (v out_sz : Nat) (h : 95 ≤ out_sz) :
    get_data_src_decode_str v out_sz =
      { out := full_text v, n := (full_text v).length, wrapped := false } := by
  have hop := op_str_length ((v >>> PERF_MEM_OP_SHIFT) &&& 0x1F)
  have hlvl := lvl_str_length ((v >>> PERF_MEM_LVL_SHIFT) &&& 0x3FFF)
  have hsnp := snp_str_length ((v >>> PERF_MEM_SNOOP_SHIFT) &&& 0x1F)
  have htlb := tlb_lvl_length ((v >>> PERF_MEM_TLB_SHIFT) &&& 0x7F)
  have hlck := lck_str_length ((v >>> PERF_MEM_LOCK_SHIFT) &&& 0x3)
  have hs1 := suffix_of_length ((v >>> PERF_MEM_LVL_SHIFT) &&& 0x3FFF)
    PERF_MEM_LVL_NA PERF_MEM_LVL_HIT PERF_MEM_LVL_MISS
  have hs2 := suffix_of_length ((v >>> PERF_MEM_TLB_SHIFT) &&& 0x7F)
    PERF_MEM_TLB_NA PERF_MEM_TLB_HIT PERF_MEM_TLB_MISS
  unfold get_data_src_decode_str full_text op_segment lvl_segment snp_segment tlb_segment
    lck_segment blk_segment op_token lvl_token snp_token tlb_token lck_token blk_token
  rw [show "BLK ".toList ++ "N/A".toList = "BLK N/A".toList from rfl]
  simp only []
  generalize op_str _ = a at hop ⊢
  generalize lvl_str _ = l at hlvl ⊢
  generalize snp_str _ = s at hsnp ⊢
  generalize tlb_lvl _ = t at htlb ⊢
  generalize lck_str _ = k at hlck ⊢
  have c1 : "OP ".toList.length = 3 := rfl
  have c2 : "|".toList.length = 1 := rfl
  have c3 : "LVL ".toList.length = 4 := rfl
  have c4 : "SNP ".toList.length = 4 := rfl
  have c5 : "TLB ".toList.length = 4 := rfl
  have c6 : "LCK ".toList.length = 4 := rfl
  have c7 : "BLK N/A".toList.length = 7 := rfl
  rw [show ({ out := [], n := 0, wrapped := false } : DecBuf) =
    { out := [], n := ([] : List Char).length, wrapped := false } from rfl]
  rw [snprintf_canon _ _ _ (by simp only [List.length_append, List.length_nil, c1, c2]; omega)]
  rw [snprintf_canon _ _ _ (by simp only [List.length_append, List.length_nil, c1, c2, c3]; omega)]
  rw [hit_miss_canon _ _ _ _ _ _
    (by simp only [List.length_append, List.length_nil, c1, c2, c3]; omega)]
  generalize suffix_of ((v >>> PERF_MEM_LVL_SHIFT) &&& 0x3FFF) _ _ _ = x1 at hs1 ⊢
  rw [snprintf_canon _ _ _ (by simp only [List.length_append, List.length_nil, c1, c2, c3]; omega)]
  rw [snprintf_canon _ _ _
    (by simp only [List.length_append, List.length_nil, c1, c2, c3, c4]; omega)]
  rw [snprintf_canon _ _ _
    (by simp only [List.length_append, List.length_nil, c1, c2, c3, c4, c5]; omega)]
  rw [hit_miss_canon _ _ _ _ _ _
    (by simp only [List.length_append, List.length_nil, c1, c2, c3, c4, c5]; omega)]
  generalize suffix_of ((v >>> PERF_MEM_TLB_SHIFT) &&& 0x7F) _ _ _ = x2 at hs2 ⊢
  rw [snprintf_canon _ _ _
    (by simp only [List.length_append, List.length_nil, c1, c2, c3, c4, c5]; omega)]
  rw [snprintf_canon _ _ _
    (by simp only [List.length_append, List.length_nil, c1, c2, c3, c4, c5, c6]; omega)]
  rw [snprintf_canon _ _ _
    (by simp only [List.length_append, List.length_nil, c1, c2, c3, c4, c5, c6, c7]; omega)]
  have e : "|".toList = ['|'] := rfl
  simp only [e, List.nil_append, List.append_assoc, List.singleton_append, List.cons_append]

theorem description_eq_full_text (v out_sz : Nat) (h : 95 ≤ out_sz) :
    description v out_sz = full_text v := by
  unfold description
  rw [decode_fits v out_sz h]

theorem fields_cons_bar (cs : List Char) : fields ('|' :: cs) = [] :: fields cs := by
  simp only [fields, if_true]

theorem fields_cons_other (c : Char) (cs : List Char) (hc : c ≠ '|') :
    fields (c :: cs) =
      match fields cs with
      | [] => [[c]]
      | s :: ss => (c :: s) :: ss := by
  simp only [fields, if_neg hc]

theorem fields_no_bar (a : List Char) (h : '|' ∉ a) : fields a = [a] := by
  induction a with
  | nil => rfl
  | cons c cs ih =>
    have hc : c ≠ '|' := fun e => h (by simp [e])
    have hcs : '|' ∉ cs := fun e => h (List.mem_cons_of_mem _ e)
    rw [fields_cons_other c cs hc, ih hcs]

theorem fields_append_bar (a r : List Char) (h : '|' ∉ a) :
    fields (a ++ '|' :: r) = a :: fields r := by
  induction a with
  | nil => rw [List.nil_append, fields_cons_bar]
  | cons c cs ih =>
    have hc : c ≠ '|' := fun e => h (by simp [e])
    have hcs : '|' ∉ cs := fun e => h (List.mem_cons_of_mem _ e)
    rw [List.cons_append, fields_cons_other c _ hc, ih hcs]

theorem ite_no_bar {c : Prop} [Decidable c] {a b : List Char}
    (ha : '|' ∉ a) (hb : '|' ∉ b) : '|' ∉ (if c then a else b) := by
  split <;> assumption

theorem op_str_no_bar (op : Nat) : '|' ∉ op_str op := by
  unfold op_str
  repeat (first | exact (by decide) | apply ite_no_bar)

theorem lvl_str_no_bar (lvl : Nat) : '|' ∉ lvl_str lvl := by
  unfold lvl_str
  repeat (first | exact (by decide) | apply ite_no_bar)

theorem snp_str_no_bar (snp : Nat) : '|' ∉ snp_str snp := by
  unfold snp_str
  repeat (first | exact (by decide) | apply ite_no_bar)

theorem tlb_lvl_no_bar (tlb : Nat) : '|' ∉ tlb_lvl tlb := by
  unfold tlb_lvl
  repeat (first | exact (by decide) | apply ite_no_bar)

theorem lck_str_no_bar (lck : Nat) : '|' ∉ lck_str lck := by
  unfold lck_str
  repeat (first | exact (by decide) | apply ite_no_bar)

theorem suffix_of_no_bar (x na hit miss : Nat) : '|' ∉ suffix_of x na hit miss := by
  unfold suffix_of
  apply ite_no_bar
  · intro hmem
    rcases List.mem_append.mp hmem with h1 | h1
    · exact absurd h1 (ite_no_bar (by decide) (by decide))
    · exact absurd h1 (ite_no_bar (by decide) (by decide))
  · decide

theorem append_no_bar {a b : List Char} (ha : '|' ∉ a) (hb : '|' ∉ b) : '|' ∉ a ++ b := by
  intro hmem
  rcases List.mem_append.mp hmem with h1 | h1
  · exact ha h1
  · exact hb h1

theorem op_token_no_bar (v : Nat) : '|' ∉ op_token v := op_str_no_bar _

theorem lvl_token_no_bar (v : Nat) : '|' ∉ lvl_token v :=
  append_no_bar (lvl_str_no_bar _) (suffix_of_no_bar _ _ _ _)

theorem snp_token_no_bar (v : Nat) : '|' ∉ snp_token v := snp_str_no_bar _

theorem tlb_token_no_bar (v : Nat) : '|' ∉ tlb_token v :=
  append_no_bar (tlb_lvl_no_bar _) (suffix_of_no_bar _ _ _ _)

theorem lck_token_no_bar (v : Nat) : '|' ∉ lck_token v := lck_str_no_bar _

theorem op_segment_no_bar (v : Nat) : '|' ∉ op_segment v :=
  append_no_bar (by decide) (op_token_no_bar v)

theorem lvl_segment_no_bar (v : Nat) : '|' ∉ lvl_segment v :=
  append_no_bar (by decide) (lvl_token_no_bar v)

theorem snp_segment_no_bar (v : Nat) : '|' ∉ snp_segment v :=
  append_no_bar (by decide) (snp_token_no_bar v)

theorem tlb_segment_no_bar (v : Nat) : '|' ∉ tlb_segment v :=
  append_no_bar (by decide) (tlb_token_no_bar v)

theorem lck_segment_no_bar (v : Nat) : '|' ∉ lck_segment v :=
  append_no_bar (by decide) (lck_token_no_bar v)

theorem blk_segment_no_bar : '|' ∉ blk_segment := by decide

theorem fields_full_text (v : Nat) :
    fields (full_text v) =
      [op_segment v, lvl_segment v, snp_segment v, tlb_segment v, lck_segment v,
        blk_segment] := by
  unfold full_text
  rw [fields_append_bar _ _ (op_segment_no_bar v),
    fields_append_bar _ _ (lvl_segment_no_bar v), fields_append_bar _ _ (snp_segment_no_bar v),
    fields_append_bar _ _ (tlb_segment_no_bar v), fields_append_bar _ _ (lck_segment_no_bar v),
    fields_no_bar _ blk_segment_no_bar]

theorem fields_description (v out_sz : Nat) (h : 95 ≤ out_sz) :
    fields (description v out_sz) =
      [op_segment v, lvl_segment v, snp_segment v, tlb_segment v, lck_segment v,
        blk_segment] := by
  rw [description_eq_full_text v out_sz h, fields_full_text]

theorem first_set_nil (x : Nat) (d : String) : first_set [] x d = d.toList := rfl

theorem first_set_cons (m : Nat) (t : String) (rest : List (Nat × String)) (x : Nat)
    (d : String) :
    first_set ((m, t) :: rest) x d = if x &&& m ≠ 0 then t.toList else first_set rest x d := by
  by_cases h : x &&& m ≠ 0
  · rw [if_pos h]
    unfold first_set
    have hd : (fun e : Nat × String => decide (x &&& e.1 ≠ 0)) (m, t) = true :=
      decide_eq_true h
    rw [List.find?_cons_of_pos rest hd]
  · rw [if_neg h]
    unfold first_set
    have hd : ¬ (fun e : Nat × String => decide (x &&& e.1 ≠ 0)) (m, t) = true := by
      intro e
      exact h (of_decide_eq_true e)
    rw [List.find?_cons_of_neg rest hd]

theorem lvl_segment_eq_stated (v : Nat) :
    lvl_segment v = stated_lvl_segment ((v >>> 5) &&& 0x3fff) := by
  unfold lvl_segment lvl_token stated_lvl_segment suffix_of lvl_str lvl_priority
  unfold PERF_MEM_LVL_SHIFT PERF_MEM_LVL_NA PERF_MEM_LVL_HIT PERF_MEM_LVL_MISS PERF_MEM_LVL_L1
    PERF_MEM_LVL_L2 PERF_MEM_LVL_L3 PERF_MEM_LVL_LFB PERF_MEM_LVL_LOC_RAM PERF_MEM_LVL_REM_RAM1
    PERF_MEM_LVL_REM_RAM2 PERF_MEM_LVL_REM_CCE1 PERF_MEM_LVL_REM_CCE2 PERF_MEM_LVL_IO
    PERF_MEM_LVL_UNC
  generalize (v >>> 5) &&& 0x3fff = lvl
  simp only [first_set_cons, first_set_nil]
  by_cases hna : lvl &&& 1 = 0
  · rw [if_pos hna, if_pos hna, if_neg (not_not.mpr hna), List.append_assoc, List.append_assoc]
  · rw [if_neg hna, if_neg hna, if_pos hna]
    rfl

theorem tlb_segment_eq_stated (v : Nat) :
    tlb_segment v = stated_tlb_segment ((v >>> 26) &&& 0x7f) := by
  unfold tlb_segment tlb_token stated_tlb_segment suffix_of tlb_lvl tlb_priority
  unfold PERF_MEM_TLB_SHIFT PERF_MEM_TLB_NA PERF_MEM_TLB_HIT PERF_MEM_TLB_MISS PERF_MEM_TLB_L1
    PERF_MEM_TLB_L2 PERF_MEM_TLB_WK PERF_MEM_TLB_OS
  generalize (v >>> 26) &&& 0x7f = tlb
  simp only [first_set_cons, first_set_nil]
  by_cases hna : tlb &&& 1 = 0
  · rw [if_pos hna, if_pos hna, if_neg (not_not.mpr hna), List.append_assoc, List.append_assoc]
  · rw [if_neg hna, if_neg hna, if_pos hna]
    rfl

theorem snp_token_eq_stated (v : Nat) :
    snp_token v = stated_snp_token ((v >>> 19) &&& 0x1f) := by
  unfold snp_token stated_snp_token snp_str snp_priority
  unfold PERF_MEM_SNOOP_SHIFT PERF_MEM_SNOOP_NA PERF_MEM_SNOOP_NONE PERF_MEM_SNOOP_HIT
    PERF_MEM_SNOOP_MISS PERF_MEM_SNOOP_HITM
  generalize (v >>> 19) &&& 0x1f = snp
  simp only [first_set_cons, first_set_nil]
  by_cases hna : snp &&& 1 = 0
  · rw [if_pos hna, if_neg (not_not.mpr hna)]
  · rw [if_neg hna, if_pos hna]

theorem op_token_eq_first_set (v : Nat) :
    op_token v = first_set op_priority (v &&& 0x1f) "N/A" := by
  unfold op_token op_str op_priority
  unfold PERF_MEM_OP_SHIFT PERF_MEM_OP_LOAD PERF_MEM_OP_STORE PERF_MEM_OP_PFETCH PERF_MEM_OP_EXEC
  rw [Nat.shiftRight_zero]
  generalize v &&& 0x1f = op
  simp only [first_set_cons, first_set_nil]

/-- The verbose decoder picks the operation token exactly as the line decoder
does: neither tests the not-available bit. -/
theorem decode_mem_op_eq_op_str (op : Nat) : decode_mem_op op = op_str op := rfl

/-! ## Properties of the line decoder -/

/-- C1: with a 128-byte buffer the decoder writes exactly the description the
decoder test expects for each of its six classification codes. -/
theorem decoder_test_vectors :
    description 0x229080144 128 =
        "OP STORE|LVL L1 hit|SNP N/A|TLB L1 hit|LCK N/A|BLK N/A".toList ∧
    description 0x229080142 128 =
        "OP LOAD|LVL L1 hit|SNP N/A|TLB L1 hit|LCK N/A|BLK N/A".toList ∧
    description 0x1e05080021 128 =
        "OP N/A|LVL N/A|SNP N/A|TLB N/A|LCK N/A|BLK N/A".toList ∧
    description 0x629800842 128 =
        "OP LOAD|LVL L3 hit|SNP HitM|TLB L1 hit|LCK N/A|BLK N/A".toList ∧
    description 0x1a49081042 128 =
        "OP LOAD|LVL RAM hit|SNP N/A|TLB L2 hit|LCK N/A|BLK N/A".toList ∧
    description 0x1e29080024 128 =
        "OP STORE|LVL N/A|SNP N/A|TLB L1 hit|LCK N/A|BLK N/A".toList := by
  decide

/-- C2: for every code and every buffer that holds the whole text, the second
segment of the description is the LVL segment as the specification words it:
"LVL N/A" alone when the not-available bit of the level sub-field is set,
otherwise "LVL " with the token of the first set bit in the priority order,
then " hit" iff the hit bit is set, then " miss" iff the miss bit is set. -/
theorem lvl_segment_as_stated (v out_sz : Nat) (h : 95 ≤ out_sz) :
    (fields (description v out_sz))[1]? = some (stated_lvl_segment ((v >>> 5) &&& 0x3fff)) := by
  rw [fields_description v out_sz h, ← lvl_segment_eq_stated]
  rfl

theorem lvl_segment_as_stated_witness :
    95 ≤ 128 ∧
      (fields (description 0x629800842 128))[1]? =
        some (stated_lvl_segment ((0x629800842 >>> 5) &&& 0x3fff)) :=
  ⟨by decide, lvl_segment_as_stated 0x629800842 128 (by decide)⟩

/-- C3 as stated fails: the code 3 has the not-available bit of the operation
sub-field set, and its operation segment is "OP LOAD", not "OP N/A". -/
theorem op_not_available_precedence_fails :
    ¬ ∀ v : Nat, v < 2 ^ 64 → (v &&& 0x1f) &&& 0x01 ≠ 0 →
      (fields (description v 128))[0]? = some "OP N/A".toList := by
  intro hall
  have h3 := hall 3 (by decide) (by decide)
  revert h3
  decide

/-- C3 amended: for every code and every buffer that holds the whole text, the
operation token is the token of the first set bit among load, store, prefetch
and exec, in that order, whether or not the not-available bit is set, and
"N/A" when none of the four is set. -/
theorem op_segment_first_set (v out_sz : Nat) (h : 95 ≤ out_sz) :
    (fields (description v out_sz))[0]? =
      some ("OP ".toList ++ first_set op_priority (v &&& 0x1f) "N/A") := by
  rw [fields_description v out_sz h, ← op_token_eq_first_set]
  rfl

theorem op_segment_first_set_witness :
    95 ≤ 128 ∧
      (fields (description 0x229080144 128))[0]? =
        some ("OP ".toList ++ first_set op_priority (0x229080144 &&& 0x1f) "N/A") :=
  ⟨by decide, op_segment_first_set 0x229080144 128 (by decide)⟩

/-- C4 at the failing input: the code 0x20000000000 has the data bit of its
block sub-field set, the verbose decoder's `decode_mem_blk` names it "DATA",
and the line decoder still prints "BLK N/A" as the last segment. -/
theorem blk_segment_ignores_block_field :
    PERF_MEM_BLK 0x20000000000 &&& PERF_MEM_BLK_DATA ≠ 0 ∧
    decode_mem_blk (PERF_MEM_BLK 0x20000000000) = "DATA".toList ∧
    (fields (description 0x20000000000 128))[5]? = some "BLK N/A".toList := by
  decide

/-- C5: for every code and every buffer that holds the whole text, the fourth
segment of the description is the TLB segment as the specification words it,
on the sub-field the decoder extracts at shift 26: "TLB N/A" alone when the
not-available bit is set, otherwise "TLB " with the token of the first set bit
among L1, L2, hardware walk and OS fault, then " hit" iff the hit bit is set,
then " miss" iff the miss bit is set. -/
theorem tlb_segment_as_stated (v out_sz : Nat) (h : 95 ≤ out_sz) :
    (fields (description v out_sz))[3]? = some (stated_tlb_segment ((v >>> 26) &&& 0x7f)) := by
  rw [fields_description v out_sz h, ← tlb_segment_eq_stated]
  rfl

theorem tlb_segment_as_stated_witness :
    95 ≤ 128 ∧
      (fields (description 0x1a49081042 128))[3]? =
        some (stated_tlb_segment ((0x1a49081042 >>> 26) &&& 0x7f)) :=
  ⟨by decide, tlb_segment_as_stated 0x1a49081042 128 (by decide)⟩

/-- C6: for every code and every buffer that holds the whole text, the third
segment of the description is "SNP " with the snoop token as the specification
words it, on the sub-field the decoder extracts at shift 19: "N/A" when the
not-available bit is set, otherwise the token of the first set bit in the
order none, hit, miss, hit-modified, and "N/A" when none of them is set. -/
theorem snp_segment_as_stated (v out_sz : Nat) (h : 95 ≤ out_sz) :
    (fields (description v out_sz))[2]? =
      some ("SNP ".toList ++ stated_snp_token ((v >>> 19) &&& 0x1f)) := by
  rw [fields_description v out_sz h, ← snp_token_eq_stated]
  rfl

theorem snp_segment_as_stated_witness :
    95 ≤ 128 ∧
      (fields (description 0x629800842 128))[2]? =
        some ("SNP ".toList ++ stated_snp_token ((0x629800842 >>> 19) &&& 0x1f)) :=
  ⟨by decide, snp_segment_as_stated 0x629800842 128 (by decide)⟩

theorem full_text_count_bar (v : Nat) : (full_text v).count '|' = 5 := by
  unfold full_text
  simp only [List.count_append, List.count_cons_self,
    List.count_eq_zero_of_not_mem (op_segment_no_bar v),
    List.count_eq_zero_of_not_mem (lvl_segment_no_bar v),
    List.count_eq_zero_of_not_mem (snp_segment_no_bar v),
    List.count_eq_zero_of_not_mem (tlb_segment_no_bar v),
    List.count_eq_zero_of_not_mem (lck_segment_no_bar v),
    List.count_eq_zero_of_not_mem blk_segment_no_bar]

theorem getLast_after_bar (a r : List Char) (x : Char) (h : r.getLast? = some x) :
    (a ++ '|' :: r).getLast? = some x := by
  have hr : r ≠ [] := by
    intro e
    rw [e] at h
    exact Option.noConfusion h
  rw [List.getLast?_append_of_ne_nil a (List.cons_ne_nil _ _),
    show '|' :: r = ['|'] ++ r from rfl, List.getLast?_append_of_ne_nil _ hr, h]

theorem full_text_getLast (v : Nat) : (full_text v).getLast? = some 'A' := by
  unfold full_text
  exact getLast_after_bar _ _ _ (getLast_after_bar _ _ _ (getLast_after_bar _ _ _
    (getLast_after_bar _ _ _ (getLast_after_bar _ _ _ rfl))))

/-- C7: for every code and every buffer that holds the whole text, the
description is "OP " + op + "|LVL " + level + "|SNP " + snoop + "|TLB " + tlb +
"|LCK " + lock + "|BLK " + block in that order, no token contains "|", the
text has exactly five "|" and does not end with one. -/
theorem description_layout (v out_sz : Nat) (h : 95 ≤ out_sz) :
    description v out_sz =
        "OP ".toList ++ op_token v ++ "|LVL ".toList ++ lvl_token v ++
          "|SNP ".toList ++ snp_token v ++ "|TLB ".toList ++ tlb_token v ++
          "|LCK ".toList ++ lck_token v ++ "|BLK ".toList ++ blk_token ∧
      ('|' ∉ op_token v ∧ '|' ∉ lvl_token v ∧ '|' ∉ snp_token v ∧ '|' ∉ tlb_token v ∧
        '|' ∉ lck_token v ∧ '|' ∉ blk_token) ∧
      (description v out_sz).count '|' = 5 ∧
      (description v out_sz).getLast? ≠ some '|' := by
  rw [description_eq_full_text v out_sz h]
  refine ⟨?_, ⟨op_token_no_bar v, lvl_token_no_bar v, snp_token_no_bar v, tlb_token_no_bar v,
    lck_token_no_bar v, by decide⟩, full_text_count_bar v, ?_⟩
  · unfold full_text op_segment lvl_segment snp_segment tlb_segment lck_segment blk_segment
    rw [show "|LVL ".toList = '|' :: "LVL ".toList from rfl,
      show "|SNP ".toList = '|' :: "SNP ".toList from rfl,
      show "|TLB ".toList = '|' :: "TLB ".toList from rfl,
      show "|LCK ".toList = '|' :: "LCK ".toList from rfl,
      show "|BLK ".toList = '|' :: "BLK ".toList from rfl]
    simp only [List.append_assoc, List.cons_append]
  · rw [full_text_getLast]
    decide

theorem description_layout_witness :
    95 ≤ 128 ∧
      (description 0x629800842 128 =
        "OP ".toList ++ op_token 0x629800842 ++ "|LVL ".toList ++ lvl_token 0x629800842 ++
          "|SNP ".toList ++ snp_token 0x629800842 ++ "|TLB ".toList ++ tlb_token 0x629800842 ++
          "|LCK ".toList ++ lck_token 0x629800842 ++ "|BLK ".toList ++ blk_token ∧
      ('|' ∉ op_token 0x629800842 ∧ '|' ∉ lvl_token 0x629800842 ∧
        '|' ∉ snp_token 0x629800842 ∧ '|' ∉ tlb_token 0x629800842 ∧
        '|' ∉ lck_token 0x629800842 ∧ '|' ∉ blk_token) ∧
      (description 0x629800842 128).count '|' = 5 ∧
      (description 0x629800842 128).getLast? ≠ some '|') :=
  ⟨by decide, description_layout 0x629800842 128 (by decide)⟩


/-! ## Basic facts about the drain loop -/

theorem ring_sz_pow (pg : Nat) (hpg : ∃ k, pg = 2 ^ k) : ∃ k, ring_sz pg = 2 ^ k := by
  obtain ⟨k, hk⟩ := hpg
  refine ⟨k + 3, ?_⟩
  unfold ring_sz RING_PAGES
  rw [hk, pow_add]
  omega

theorem ring_sz_pos (pg : Nat) (hpg : ∃ k, pg = 2 ^ k) : 0 < ring_sz pg := by
  obtain ⟨k, hk⟩ := ring_sz_pow pg hpg
  rw [hk]
  exact Nat.pow_pos (by decide)

theorem land_mask (pg x : Nat) (hpg : ∃ k, pg = 2 ^ k) :
    x &&& (ring_sz pg - 1) = x % ring_sz pg := by
  obtain ⟨k, hk⟩ := ring_sz_pow pg hpg
  rw [hk, Nat.and_pow_two_sub_one_eq_mod]

theorem hdr_size_offset (data : Mem) (t : Nat) :
    hdr_size (offset data t) = data (t + 6) % 256 + 256 * (data (t + 7) % 256) := rfl

theorem hdr_size_lt (h : Mem) : hdr_size h < 65536 := by
  unfold hdr_size rd16 rd8
  omega

/-- The two copies of lines 118-119 put byte `(t + i) mod N` of the ring at
index `i` of the scratch buffer, for every index below the record length. -/
theorem scratch_bytes (scratch data : Mem) (N t S i : Nat)
    (ht : t < N) (hwrap : N < t + S) (hfit : S ≤ N) (hi : i < S) :
    memcpy (memcpy scratch 0 data t (N - t)) (N - t) data 0 (S - (N - t)) i =
      data ((t + i) % N) := by
  unfold memcpy
  by_cases h1 : i < N - t
  · have e : (t + i) % N = t + i := Nat.mod_eq_of_lt (by omega)
    rw [if_neg (by omega), if_pos (by omega), e, Nat.sub_zero]
  · have e : (t + i) % N = i - (N - t) := by
      rw [Nat.mod_eq_sub_mod (by omega), Nat.mod_eq_of_lt (by omega)]
      omega
    rw [if_pos (by omega), e, Nat.zero_add]

theorem scratch_hdr_size (scratch data : Mem) (N t n : Nat) (hhdr : t + HEADER_SZ ≤ N) :
    hdr_size (memcpy (memcpy scratch 0 data t (N - t)) (N - t) data 0 n) =
      hdr_size (offset data t) := by
  unfold HEADER_SZ at hhdr
  unfold hdr_size rd16 rd8 memcpy offset
  rw [if_neg (by omega), if_pos (by omega), if_neg (by omega), if_pos (by omega)]

theorem locate_wrapped (pg : Nat) (data scratch : Mem) (tail : Nat)
    (hpg : ∃ k, pg = 2 ^ k)
    (hwrap : ring_sz pg < tail % ring_sz pg + hdr_size (offset data (tail % ring_sz pg)))
    (hcap : hdr_size (offset data (tail % ring_sz pg)) ≤ SCRATCH_SZ) :
    locate pg data scratch tail =
      .record
        (memcpy (memcpy scratch 0 data (tail % ring_sz pg) (ring_sz pg - tail % ring_sz pg))
          (ring_sz pg - tail % ring_sz pg) data 0
          (hdr_size (offset data (tail % ring_sz pg)) - (ring_sz pg - tail % ring_sz pg)))
        (memcpy (memcpy scratch 0 data (tail % ring_sz pg) (ring_sz pg - tail % ring_sz pg))
          (ring_sz pg - tail % ring_sz pg) data 0
          (hdr_size (offset data (tail % ring_sz pg)) - (ring_sz pg - tail % ring_sz pg))) := by
  unfold locate
  simp only [land_mask pg tail hpg]
  rw [if_pos (by omega), if_neg (by omega)]

theorem locate_contiguous (pg : Nat) (data scratch : Mem) (tail : Nat)
    (hpg : ∃ k, pg = 2 ^ k)
    (hfit : tail % ring_sz pg + hdr_size (offset data (tail % ring_sz pg)) ≤ ring_sz pg) :
    locate pg data scratch tail = .record (offset data (tail % ring_sz pg)) scratch := by
  unfold locate
  simp only [land_mask pg tail hpg]
  rw [if_neg (by omega)]

/-! ## Properties of the drain loop -/

/-- C8: for a ring of size N (a power of two), a tail offset t and the record
of declared length S whose header the iteration reads at offset t, with
t + S > N and S within the scratch capacity, the iteration assembles a scratch
copy whose byte i is byte (t + i) mod N of the ring for every i < S, and then
processes the record from that copy, whose header declares the same length S.
The hypotheses `hhdr` and `hfit` keep the reads of the iteration inside the
N bytes of the region: the header is read in place, and the second copy takes
S - (N - t) bytes from offset 0. -/
theorem wrapped_record_reassembled (pg : Nat) (data : Mem) (w : Worker) (S : Nat)
    (hpg : ∃ k, pg = 2 ^ k)
    (hhdr : w.data_tail % ring_sz pg + HEADER_SZ ≤ ring_sz pg)
    (hS : hdr_size (offset data (w.data_tail % ring_sz pg)) = S)
    (hwrap : ring_sz pg < w.data_tail % ring_sz pg + S)
    (hcap : S ≤ SCRATCH_SZ) (hfit : S ≤ ring_sz pg) :
    ∃ sc : Mem,
      locate pg data w.scratch w.data_tail = .record sc sc ∧
      (∀ i, i < S → sc i = data ((w.data_tail % ring_sz pg + i) % ring_sz pg)) ∧
      hdr_size sc = S ∧
      drain_iter pg data w = .next (consume sc { w with scratch := sc }) ∧
      (consume sc { w with scratch := sc }).data_tail = (w.data_tail + S) % 2 ^ 64 := by
  have ht : w.data_tail % ring_sz pg < ring_sz pg := Nat.mod_lt _ (ring_sz_pos pg hpg)
  have hloc := locate_wrapped pg data w.scratch w.data_tail hpg (by omega) (by omega)
  rw [hS] at hloc
  have hsize := scratch_hdr_size w.scratch data (ring_sz pg) (w.data_tail % ring_sz pg)
    (S - (ring_sz pg - w.data_tail % ring_sz pg)) hhdr
  rw [hS] at hsize
  refine ⟨_, hloc, ?_, hsize, ?_, ?_⟩
  · intro i hi
    exact scratch_bytes w.scratch data (ring_sz pg) _ S i ht hwrap hfit hi
  · unfold drain_iter
    rw [hloc]
  · show (w.data_tail + hdr_size _) % 2 ^ 64 = _
    rw [hsize]

theorem wrapped_record_reassembled_witness :
    (∃ k, 4096 = 2 ^ k) ∧
    (sample_worker 32760).data_tail % ring_sz 4096 + HEADER_SZ ≤ ring_sz 4096 ∧
    hdr_size (offset sample_ring ((sample_worker 32760).data_tail % ring_sz 4096)) = 16 ∧
    ring_sz 4096 < (sample_worker 32760).data_tail % ring_sz 4096 + 16 ∧
    16 ≤ SCRATCH_SZ ∧ 16 ≤ ring_sz 4096 ∧
    ∃ sc : Mem,
      locate 4096 sample_ring (sample_worker 32760).scratch (sample_worker 32760).data_tail =
        .record sc sc ∧
      (∀ i, i < 16 →
        sc i = sample_ring (((sample_worker 32760).data_tail % ring_sz 4096 + i) % ring_sz 4096)) ∧
      hdr_size sc = 16 ∧
      drain_iter 4096 sample_ring (sample_worker 32760) =
        .next (consume sc { sample_worker 32760 with scratch := sc }) ∧
      (consume sc { sample_worker 32760 with scratch := sc }).data_tail =
        ((sample_worker 32760).data_tail + 16) % 2 ^ 64 :=
  ⟨⟨12, by decide⟩, by decide, by decide, by decide, by decide, by decide,
    wrapped_record_reassembled 4096 sample_ring (sample_worker 32760) 16 ⟨12, by decide⟩
      (by decide) (by decide) (by decide) (by decide) (by decide)⟩

/-- C9: for a ring of size N (a power of two) whose record at offset
tail mod N declares a length S with (tail mod N) + S ≤ N, one iteration reads
the record in place at offset tail mod N, leaves the scratch buffer alone and
advances data_tail by S in 64-bit arithmetic, so by exactly S when
data_tail + S does not overflow, whatever the record's kind. -/
theorem contiguous_record_consumed (pg : Nat) (data : Mem) (w : Worker) (S : Nat)
    (hpg : ∃ k, pg = 2 ^ k)
    (hS : hdr_size (offset data (w.data_tail % ring_sz pg)) = S)
    (hfit : w.data_tail % ring_sz pg + S ≤ ring_sz pg) :
    locate pg data w.scratch w.data_tail =
        .record (offset data (w.data_tail % ring_sz pg)) w.scratch ∧
      (∀ i, i < S →
        offset data (w.data_tail % ring_sz pg) i = data (w.data_tail % ring_sz pg + i)) ∧
      drain_iter pg data w = .next (consume (offset data (w.data_tail % ring_sz pg)) w) ∧
      (consume (offset data (w.data_tail % ring_sz pg)) w).scratch = w.scratch ∧
      (consume (offset data (w.data_tail % ring_sz pg)) w).data_tail =
        (w.data_tail + S) % 2 ^ 64 ∧
      (w.data_tail + S < 2 ^ 64 →
        (consume (offset data (w.data_tail % ring_sz pg)) w).data_tail = w.data_tail + S) := by
  have hloc := locate_contiguous pg data w.scratch w.data_tail hpg (by omega)
  have hadv : (consume (offset data (w.data_tail % ring_sz pg)) w).data_tail =
      (w.data_tail + S) % 2 ^ 64 := by
    show (w.data_tail + hdr_size _) % 2 ^ 64 = _
    rw [hS]
  refine ⟨hloc, fun i _ => rfl, ?_, rfl, hadv, ?_⟩
  · unfold drain_iter
    rw [hloc]
  · intro hlt
    rw [hadv, Nat.mod_eq_of_lt hlt]

theorem contiguous_record_consumed_witness :
    (∃ k, 4096 = 2 ^ k) ∧
    hdr_size (offset sample_ring ((sample_worker 32776).data_tail % ring_sz 4096)) = 72 ∧
    (sample_worker 32776).data_tail % ring_sz 4096 + 72 ≤ ring_sz 4096 ∧
    (locate 4096 sample_ring (sample_worker 32776).scratch (sample_worker 32776).data_tail =
        .record (offset sample_ring ((sample_worker 32776).data_tail % ring_sz 4096))
          (sample_worker 32776).scratch ∧
      (∀ i, i < 72 →
        offset sample_ring ((sample_worker 32776).data_tail % ring_sz 4096) i =
          sample_ring ((sample_worker 32776).data_tail % ring_sz 4096 + i)) ∧
      drain_iter 4096 sample_ring (sample_worker 32776) =
        .next (consume (offset sample_ring ((sample_worker 32776).data_tail % ring_sz 4096))
          (sample_worker 32776)) ∧
      (consume (offset sample_ring ((sample_worker 32776).data_tail % ring_sz 4096))
        (sample_worker 32776)).scratch = (sample_worker 32776).scratch ∧
      (consume (offset sample_ring ((sample_worker 32776).data_tail % ring_sz 4096))
        (sample_worker 32776)).data_tail = ((sample_worker 32776).data_tail + 72) % 2 ^ 64 ∧
      ((sample_worker 32776).data_tail + 72 < 2 ^ 64 →
        (consume (offset sample_ring ((sample_worker 32776).data_tail % ring_sz 4096))
          (sample_worker 32776)).data_tail = (sample_worker 32776).data_tail + 72)) :=
  ⟨⟨12, by decide⟩, by decide, by decide,
    contiguous_record_consumed 4096 sample_ring (sample_worker 32776) 72 ⟨12, by decide⟩
      (by decide) (by decide)⟩

/-- An iteration on a record whose header lies inside the region and declares
a length between the header size and the scratch capacity does not break out
of the loop, and moves the cursor by that length in 64-bit arithmetic. -/
theorem drain_iter_advances (pg : Nat) (data : Mem) (w : Worker)
    (hpg : ∃ k, pg = 2 ^ k)
    (hhdr : w.data_tail % ring_sz pg + HEADER_SZ ≤ ring_sz pg)
    (hcap : hdr_size (offset data (w.data_tail % ring_sz pg)) ≤ SCRATCH_SZ) :
    ∃ w1, drain_iter pg data w = .next w1 ∧
      w1.data_tail =
        (w.data_tail + hdr_size (offset data (w.data_tail % ring_sz pg))) % 2 ^ 64 := by
  by_cases hfit : w.data_tail % ring_sz pg + hdr_size (offset data (w.data_tail % ring_sz pg))
      ≤ ring_sz pg
  · have hloc := locate_contiguous pg data w.scratch w.data_tail hpg hfit
    refine ⟨consume (offset data (w.data_tail % ring_sz pg)) w, ?_, rfl⟩
    unfold drain_iter
    rw [hloc]
  · have hloc := locate_wrapped pg data w.scratch w.data_tail hpg (by omega) hcap
    have hsize := scratch_hdr_size w.scratch data (ring_sz pg) (w.data_tail % ring_sz pg)
      (hdr_size (offset data (w.data_tail % ring_sz pg)) -
        (ring_sz pg - w.data_tail % ring_sz pg)) hhdr
    generalize memcpy (memcpy w.scratch 0 data (w.data_tail % ring_sz pg)
      (ring_sz pg - w.data_tail % ring_sz pg)) (ring_sz pg - w.data_tail % ring_sz pg) data 0
      (hdr_size (offset data (w.data_tail % ring_sz pg)) -
        (ring_sz pg - w.data_tail % ring_sz pg)) = sc at hloc hsize
    refine ⟨consume sc { w with scratch := sc }, ?_, ?_⟩
    · unfold drain_iter
      rw [hloc]
    · show (w.data_tail + hdr_size sc) % 2 ^ 64 = _
      rw [hsize]

theorem drain_at_head (pg : Nat) (data : Mem) (head fuel : Nat) (w : Worker)
    (h : w.data_tail = head) : drain pg data head fuel w = some (w, []) := by
  cases fuel with
  | zero => unfold drain; rw [if_pos h]
  | succ n => unfold drain; rw [if_pos h]

theorem drain_complete_records (pg : Nat) (data : Mem) (head : Nat)
    (hpg : ∃ k, pg = 2 ^ k) (hhead : head < 2 ^ 64) (tail : Nat)
    (hrec : Records pg data head tail) :
    ∀ (w : Worker) (fuel : Nat), w.data_tail = tail → head - tail ≤ fuel →
      ∃ w1 log, drain pg data head fuel w = some (w1, log) ∧ w1.data_tail = head ∧
        (∀ r ∈ log, tail ≤ r.1 ∧ r.1 < r.2 ∧ r.2 ≤ head) ∧
        log.Pairwise (fun a b => a.2 ≤ b.1) := by
  induction hrec with
  | done =>
    intro w fuel hw _
    exact ⟨w, [], drain_at_head pg data head fuel w hw, hw, by simp, List.Pairwise.nil⟩
  | cons tail hhdr hmin hcap hend _ ih =>
    intro w fuel hw hfuel
    unfold HEADER_SZ at hmin
    obtain ⟨w1, hstep, htail1⟩ :=
      drain_iter_advances pg data w hpg (by rw [hw]; exact hhdr) (by rw [hw]; exact hcap)
    rw [hw, Nat.mod_eq_of_lt (by omega)] at htail1
    cases fuel with
    | zero => omega
    | succ n =>
      obtain ⟨w2, log, hrun, hfin, hlog, hpw⟩ := ih w1 n htail1 (by omega)
      refine ⟨w2, (w.data_tail, w1.data_tail) :: log, ?_, hfin, ?_, ?_⟩
      · unfold drain
        rw [if_neg (by omega), hstep]
        simp only [hrun]
      · intro r hr
        rcases List.mem_cons.mp hr with e | hmem
        · rw [e]
          simp only
          omega
        · have := hlog r hmem
          omega
      · refine List.Pairwise.cons ?_ hpw
        intro r hmem
        have := hlog r hmem
        simp only
        omega

theorem records_le (pg : Nat) (data : Mem) (head tail : Nat)
    (hrec : Records pg data head tail) : tail ≤ head := by
  induction hrec with
  | done => exact Nat.le_refl _
  | cons tail _ _ _ hend _ _ => omega

/-- C10: when the inner loop starts with tail ≤ head, head a 64-bit snapshot,
and the bytes from tail to head are complete records, each of declared length
between the header size and the scratch capacity, the loop run with enough
fuel ends with tail = head; every iteration leaves the cursor at most at head,
and the cursor ranges consumed by successive iterations are pairwise disjoint,
each starting where the one before it ended or later. -/
theorem drain_reaches_head (pg : Nat) (data : Mem) (head : Nat) (w : Worker)
    (hpg : ∃ k, pg = 2 ^ k) (hhead : head < 2 ^ 64)
    (hrec : Records pg data head w.data_tail) (fuel : Nat) (hfuel : head - w.data_tail ≤ fuel) :
    w.data_tail ≤ head ∧
    ∃ w1 log, drain pg data head fuel w = some (w1, log) ∧ w1.data_tail = head ∧
      (∀ r ∈ log, w.data_tail ≤ r.1 ∧ r.1 < r.2 ∧ r.2 ≤ head) ∧
      log.Pairwise (fun a b => a.2 ≤ b.1) ∧
      log.Pairwise (fun a b => ∀ x, ¬ ((a.1 ≤ x ∧ x < a.2) ∧ (b.1 ≤ x ∧ x < b.2))) := by
  obtain ⟨w1, log, hrun, hfin, hlog, hpw⟩ :=
    drain_complete_records pg data head hpg hhead w.data_tail hrec w fuel rfl hfuel
  refine ⟨records_le pg data head w.data_tail hrec, w1, log, hrun, hfin, hlog, hpw, ?_⟩
  refine hpw.imp ?_
  intro a b hab x hx
  omega

theorem drain_reaches_head_witness :
    (∃ k, 4096 = 2 ^ k) ∧ 32848 < 2 ^ 64 ∧
    Records 4096 sample_ring 32848 (sample_worker 32760).data_tail ∧
    32848 - (sample_worker 32760).data_tail ≤ 88 ∧
    ((sample_worker 32760).data_tail ≤ 32848 ∧
    ∃ w1 log, drain 4096 sample_ring 32848 88 (sample_worker 32760) = some (w1, log) ∧
      w1.data_tail = 32848 ∧
      (∀ r ∈ log, (sample_worker 32760).data_tail ≤ r.1 ∧ r.1 < r.2 ∧ r.2 ≤ 32848) ∧
      log.Pairwise (fun a b => a.2 ≤ b.1) ∧
      log.Pairwise (fun a b => ∀ x, ¬ ((a.1 ≤ x ∧ x < a.2) ∧ (b.1 ≤ x ∧ x < b.2)))) :=
  ⟨⟨12, by decide⟩, by decide,
    Records.cons 32760 (by decide) (by decide) (by decide) (by decide)
      (Records.cons 32776 (by decide) (by decide) (by decide) (by decide) Records.done),
    by decide,
    drain_reaches_head 4096 sample_ring 32848 (sample_worker 32760) ⟨12, by decide⟩ (by decide)
      (Records.cons 32760 (by decide) (by decide) (by decide) (by decide)
        (Records.cons 32776 (by decide) (by decide) (by decide) (by decide) Records.done))
      88 (by decide)⟩

/-! ## Properties of the derived predicate and of the buffer use -/

theorem and_two_pow_ne_zero (x k : Nat) : x &&& 2 ^ k ≠ 0 ↔ x.testBit k = true := by
  constructor
  · intro h
    by_contra hb
    apply h
    apply Nat.eq_of_testBit_eq
    intro i
    rw [Nat.testBit_and, Nat.zero_testBit]
    by_cases hik : k = i
    · subst hik
      simp [hb]
    · simp [Nat.testBit_two_pow_of_ne hik]
  · intro hb h
    have h1 : (x &&& 2 ^ k).testBit k = true := by
      rw [Nat.testBit_and, hb, Nat.testBit_two_pow_self]
      rfl
    rw [h, Nat.zero_testBit] at h1
    exact Bool.noConfusion h1

/-- C15: for every code and every single-bit mask L = 2^k, `is_cache_miss`
is non-zero exactly when the level sub-field (code >> 5) & 0x3fff has bit k
and the miss bit (0x04, bit 2) set; it is 0 for every code whose level
sub-field lacks the miss bit, whatever the mask. -/
theorem is_cache_miss_iff (code k : Nat) :
    (is_cache_miss code (2 ^ k) ≠ 0 ↔
      (((code >>> 5) &&& 0x3fff).testBit k = true ∧
        ((code >>> 5) &&& 0x3fff).testBit 2 = true)) ∧
    (∀ L : Nat, ((code >>> 5) &&& 0x3fff) &&& 0x04 = 0 → is_cache_miss code L = 0) := by
  have hm : ∀ x : Nat, x &&& 4 ≠ 0 ↔ x.testBit 2 = true := fun x => and_two_pow_ne_zero x 2
  unfold is_cache_miss PERF_MEM_LVL PERF_MEM_LVL_SHIFT PERF_MEM_LVL_MISS
  generalize (code >>> 5) &&& 0x3fff = lvl
  constructor
  · rw [← and_two_pow_ne_zero lvl k, ← hm lvl]
    by_cases h : lvl &&& 2 ^ k ≠ 0 ∧ lvl &&& 4 ≠ 0
    · simp only [if_pos h]
      exact ⟨fun _ => h, fun _ => by decide⟩
    · simp only [if_neg h]
      exact ⟨fun h0 => absurd rfl h0, fun h1 => absurd h1 h⟩
  · intro L h0
    have h : ¬ (lvl &&& L ≠ 0 ∧ lvl &&& 4 ≠ 0) := fun hc => hc.2 h0
    simp only [if_neg h]

theorem full_text_length (v : Nat) : (full_text v).length ≤ 94 := by
  have hop := op_str_length ((v >>> PERF_MEM_OP_SHIFT) &&& 0x1F)
  have hlvl := lvl_str_length ((v >>> PERF_MEM_LVL_SHIFT) &&& 0x3FFF)
  have hsnp := snp_str_length ((v >>> PERF_MEM_SNOOP_SHIFT) &&& 0x1F)
  have htlb := tlb_lvl_length ((v >>> PERF_MEM_TLB_SHIFT) &&& 0x7F)
  have hlck := lck_str_length ((v >>> PERF_MEM_LOCK_SHIFT) &&& 0x3)
  have hs1 := suffix_of_length ((v >>> PERF_MEM_LVL_SHIFT) &&& 0x3FFF)
    PERF_MEM_LVL_NA PERF_MEM_LVL_HIT PERF_MEM_LVL_MISS
  have hs2 := suffix_of_length ((v >>> PERF_MEM_TLB_SHIFT) &&& 0x7F)
    PERF_MEM_TLB_NA PERF_MEM_TLB_HIT PERF_MEM_TLB_MISS
  have c1 : "OP ".toList.length = 3 := rfl
  have c3 : "LVL ".toList.length = 4 := rfl
  have c4 : "SNP ".toList.length = 4 := rfl
  have c5 : "TLB ".toList.length = 4 := rfl
  have c6 : "LCK ".toList.length = 4 := rfl
  have c7 : "BLK ".toList.length = 4 := rfl
  have c8 : "N/A".toList.length = 3 := rfl
  unfold full_text op_segment lvl_segment snp_segment tlb_segment lck_segment blk_segment
    op_token lvl_token snp_token tlb_token lck_token blk_token
  simp only [List.length_append, List.length_cons, c1, c3, c4, c5, c6, c7, c8]
  omega

/-- C16: for every code the description has at most 94 characters, and some
code reaches 94; so with a 128-byte buffer the buffer ends up holding the whole
untruncated text, the running offset n ends at the length of that text, within
the buffer size, and no call is made with n above the buffer size, where
out_sz - n would wrap around. -/
theorem description_fits_128 (v : Nat) :
    (description v 128).length ≤ 94 ∧
    (description 0x11A1100C8 128).length = 94 ∧
    description v 128 = full_text v ∧
    (get_data_src_decode_str v 128).n = (full_text v).length ∧
    (get_data_src_decode_str v 128).n ≤ 128 ∧
    (get_data_src_decode_str v 128).wrapped = false := by
  have hfit := decode_fits v 128 (by decide)
  have hlen := full_text_length v
  refine ⟨?_, by decide, ?_, ?_, ?_, ?_⟩
  · unfold description
    rw [hfit]
    exact hlen
  · unfold description
    rw [hfit]
  · rw [hfit]
  · rw [hfit]
    show (full_text v).length ≤ 128
    omega
  · rw [hfit]

/-! ## Facts about whole drains -/

theorem scratch_hdr_type (scratch data : Mem) (N t n : Nat) (hhdr : t + HEADER_SZ ≤ N) :
    hdr_type (memcpy (memcpy scratch 0 data t (N - t)) (N - t) data 0 n) =
      hdr_type (offset data t) := by
  unfold HEADER_SZ at hhdr
  unfold hdr_type rd32 rd16 rd8 memcpy offset
  rw [if_neg (by omega), if_pos (by omega), if_neg (by omega), if_pos (by omega),
    if_neg (by omega), if_pos (by omega), if_neg (by omega), if_pos (by omega)]

/-- Where an iteration finds a record whose header lies inside the region and
whose declared length is within the scratch capacity: at a pointer whose
header is the one read in place and whose first `S` bytes are the record's
bytes in ring order. -/
theorem locate_record (pg : Nat) (data scratch : Mem) (tail : Nat)
    (hpg : ∃ k, pg = 2 ^ k)
    (hhdr : tail % ring_sz pg + HEADER_SZ ≤ ring_sz pg)
    (hcap : rec_len pg data tail ≤ SCRATCH_SZ) :
    ∃ h sc, locate pg data scratch tail = .record h sc ∧
      hdr_size h = rec_len pg data tail ∧
      hdr_type h = hdr_type (offset data (tail % ring_sz pg)) ∧
      (rec_len pg data tail ≤ ring_sz pg →
        ∀ i, i < rec_len pg data tail → h i = ring_view pg data tail i) := by
  unfold rec_len at hcap ⊢
  have ht : tail % ring_sz pg < ring_sz pg := Nat.mod_lt _ (ring_sz_pos pg hpg)
  by_cases hfit : tail % ring_sz pg + hdr_size (offset data (tail % ring_sz pg)) ≤ ring_sz pg
  · refine ⟨offset data (tail % ring_sz pg), scratch,
      locate_contiguous pg data scratch tail hpg hfit, rfl, rfl, ?_⟩
    intro _ i hi
    have e : (tail % ring_sz pg + i) % ring_sz pg = tail % ring_sz pg + i :=
      Nat.mod_eq_of_lt (by omega)
    unfold ring_view offset
    rw [e]
  · refine ⟨_, _, locate_wrapped pg data scratch tail hpg (by omega) hcap,
      scratch_hdr_size scratch data (ring_sz pg) (tail % ring_sz pg) _ hhdr,
      scratch_hdr_type scratch data (ring_sz pg) (tail % ring_sz pg) _ hhdr, ?_⟩
    intro hN i hi
    exact scratch_bytes scratch data (ring_sz pg) _ _ i ht (by omega) hN hi

theorem consume_csv_sample (h : Mem) (w : Worker) (ht : hdr_type h = PERF_RECORD_SAMPLE) :
    (consume h w).csv = w.csv ++ [sample_line h] := by
  unfold consume
  simp only [ht, if_true]

/-- An iteration on a well-formed sample record prints one line, taken at the
pointer the iteration located, and moves the cursor by the declared length. -/
theorem drain_iter_sample (pg : Nat) (data : Mem) (w : Worker)
    (hpg : ∃ k, pg = 2 ^ k) (hs : sample_at pg data w.data_tail) :
    ∃ w1 h, drain_iter pg data w = .next w1 ∧
      w1.data_tail = (w.data_tail + rec_len pg data w.data_tail) % 2 ^ 64 ∧
      w1.csv = w.csv ++ [sample_line h] ∧ w1.running = w.running ∧ w1.err = w.err ∧
      (rec_len pg data w.data_tail ≤ ring_sz pg →
        ∀ i, i < rec_len pg data w.data_tail → h i = ring_view pg data w.data_tail i) := by
  obtain ⟨hhdr, htype, _, hcap⟩ := hs
  obtain ⟨h, sc, hloc, hsize, hty, hbytes⟩ :=
    locate_record pg data w.scratch w.data_tail hpg hhdr hcap
  refine ⟨consume h { w with scratch := sc }, h, ?_, ?_, ?_, rfl, rfl, hbytes⟩
  · unfold drain_iter
    rw [hloc]
  · show (w.data_tail + hdr_size h) % 2 ^ 64 = _
    rw [hsize]
  · exact consume_csv_sample h _ (hty.trans htype)

/-- An iteration on a record that crosses the end of the region and declares
more than the scratch capacity reports it, clears `running` and breaks. -/
theorem drain_iter_too_large (pg : Nat) (data : Mem) (w : Worker)
    (hpg : ∃ k, pg = 2 ^ k)
    (hwrap : ring_sz pg < w.data_tail % ring_sz pg + rec_len pg data w.data_tail)
    (hbig : SCRATCH_SZ < rec_len pg data w.data_tail) :
    drain_iter pg data w =
      .brk { w with err := w.err ++ [rec_len pg data w.data_tail], running := 0 } := by
  unfold rec_len at hwrap hbig ⊢
  have hloc : locate pg data w.scratch w.data_tail =
      .too_large (hdr_size (offset data (w.data_tail % ring_sz pg))) := by
    unfold locate
    simp only [land_mask pg w.data_tail hpg]
    rw [if_pos (by omega), if_pos (by omega)]
  unfold drain_iter
  rw [hloc]

theorem drain_succ_next (pg : Nat) (data : Mem) (head fuel : Nat) (w w1 : Worker)
    (hne : w.data_tail ≠ head) (hstep : drain_iter pg data w = .next w1) :
    drain pg data head (fuel + 1) w =
      match drain pg data head fuel w1 with
      | some (w2, log) => some (w2, (w.data_tail, w1.data_tail) :: log)
      | none => none := by
  simp only [drain, if_neg hne, hstep]

theorem drain_succ_brk (pg : Nat) (data : Mem) (head fuel : Nat) (w w1 : Worker)
    (hne : w.data_tail ≠ head) (hstep : drain_iter pg data w = .brk w1) :
    drain pg data head (fuel + 1) w = some (w1, []) := by
  simp only [drain, if_neg hne, hstep]

theorem samples_le (pg : Nat) (data : Mem) (n c c1 : Nat) (hs : Samples pg data n c c1) :
    c ≤ c1 := by
  induction hs with
  | nil c => exact Nat.le_refl _
  | cons n c c1 _ _ ih => omega

/-- Draining `n` well-formed sample records in a row, all below `head`: the
loop prints `n` lines, leaves `running` and the error stream alone, and goes on
from the cursor after the last of them. -/
theorem drain_samples (pg : Nat) (data : Mem) (head : Nat)
    (hpg : ∃ k, pg = 2 ^ k) (hhead : head < 2 ^ 64) (n c c1 : Nat)
    (hs : Samples pg data n c c1) :
    c1 ≤ head → ∀ w : Worker, w.data_tail = c →
      ∃ (wn : Worker) (lines : List CsvLine) (log : List (Nat × Nat)),
        lines.length = n ∧ log.length = n ∧ wn.data_tail = c1 ∧
        wn.csv = w.csv ++ lines ∧ wn.running = w.running ∧ wn.err = w.err ∧
        (∀ r ∈ log, r.2 ≤ c1) ∧
        ∀ fuel, drain pg data head (fuel + n) w =
          match drain pg data head fuel wn with
          | some (w2, l2) => some (w2, log ++ l2)
          | none => none := by
  induction hs with
  | nil c =>
    intro _ w hw
    refine ⟨w, [], [], rfl, rfl, hw, by simp, rfl, rfl, by simp, ?_⟩
    intro fuel
    cases hd : drain pg data head fuel w with
    | none => simp [hd]
    | some p => simp [hd]
  | cons n c c1 hsa hrest ih =>
    intro hle w hw
    have hmin : HEADER_SZ + 64 ≤ rec_len pg data c := hsa.2.2.1
    unfold HEADER_SZ at hmin
    have hle1 := samples_le pg data n _ c1 hrest
    obtain ⟨w1, h, hstep, ht1, hcsv1, hrun1, herr1, _⟩ :=
      drain_iter_sample pg data w hpg (by rw [hw]; exact hsa)
    rw [hw, Nat.mod_eq_of_lt (by omega)] at ht1
    obtain ⟨wn, lines, log, hlen, hlog, htail, hcsv, hrun, herr, hbnd, hrun_eq⟩ :=
      ih hle w1 ht1
    refine ⟨wn, sample_line h :: lines, (w.data_tail, w1.data_tail) :: log, ?_, ?_, htail,
      ?_, hrun.trans hrun1, herr.trans herr1, ?_, ?_⟩
    · simp [hlen]
    · simp [hlog]
    · rw [hcsv, hcsv1]
      simp
    · intro r hr
      rcases List.mem_cons.mp hr with e | hmem
      · rw [e]
        simp only
        omega
      · exact hbnd r hmem
    · intro fuel
      rw [show fuel + (n + 1) = (fuel + n) + 1 from rfl,
        drain_succ_next pg data head (fuel + n) w w1 (by omega) hstep, hrun_eq fuel]
      cases hd : drain pg data head fuel wn with
      | none => rfl
      | some p => rfl

/-! ## Facts about the parsed sample line -/

theorem rd64_lt (h : Mem) (p : Nat) : rd64 h p < 2 ^ 64 := by
  unfold rd64 rd32 rd16 rd8
  omega

theorem rd64_congr (h h2 : Mem) (p : Nat) (he : ∀ i, i < 8 → h (p + i) = h2 (p + i)) :
    rd64 h p = rd64 h2 p := by
  have e0 := he 0 (by omega)
  have e1 := he 1 (by omega)
  have e2 := he 2 (by omega)
  have e3 := he 3 (by omega)
  have e4 := he 4 (by omega)
  have e5 := he 5 (by omega)
  have e6 := he 6 (by omega)
  have e7 := he 7 (by omega)
  simp only [Nat.add_zero] at e0
  simp only [rd64, rd32, rd16, rd8, Nat.add_assoc, Nat.reduceAdd, e0, e1, e2, e3, e4, e5, e6, e7]

theorem land_low32 (x : Nat) : (x &&& 0xffffffff) % 2 ^ 32 = x % 2 ^ 32 := by
  rw [show (0xffffffff : Nat) = 2 ^ 32 - 1 from by norm_num, Nat.and_pow_two_sub_one_eq_mod,
    Nat.mod_mod]

theorem shift_high32 (x : Nat) (hx : x < 2 ^ 64) : (x >>> 32) % 2 ^ 32 = x / 2 ^ 32 := by
  rw [Nat.shiftRight_eq_div_pow]
  apply Nat.mod_eq_of_lt
  omega

/-- The fields of the printed line, as reads of the 64 bytes that follow the
header at `h`. -/
theorem sample_line_fields (h : Mem) :
    (sample_line h).ip = rd64 h 8 ∧
    (sample_line h).pid = rd64 h 16 % 2 ^ 32 ∧
    (sample_line h).tid = rd64 h 16 / 2 ^ 32 ∧
    (sample_line h).ts = rd64 h 24 ∧
    (sample_line h).lin_addr = rd64 h 32 ∧
    (sample_line h).cpu = rd64 h 48 % 2 ^ 32 ∧
    (sample_line h).data_src = rd64 h 56 ∧
    (sample_line h).phys_addr = rd64 h 64 % 2 ^ 52 ∧
    (sample_line h).decode_str = description (rd64 h 56) 128 := by
  refine ⟨rfl, ?_, ?_, rfl, rfl, ?_, rfl, ?_, rfl⟩
  · exact land_low32 _
  · exact shift_high32 _ (rd64_lt h 16)
  · exact land_low32 _
  · exact Nat.and_pow_two_sub_one_eq_mod _ 52

/-- The printed line depends only on the seven fields it uses: the bytes at
offsets 8 to 71 from `h`, those of the stream id at 40 to 47 excepted. -/
theorem sample_line_congr (h h2 : Mem)
    (he : ∀ i, 8 ≤ i → i < 72 → (i < 40 ∨ 48 ≤ i) → h i = h2 i) :
    sample_line h = sample_line h2 := by
  have e1 : rd64 h 8 = rd64 h2 8 :=
    rd64_congr h h2 8 (fun i hi => he _ (by omega) (by omega) (by omega))
  have e2 : rd64 h 16 = rd64 h2 16 :=
    rd64_congr h h2 16 (fun i hi => he _ (by omega) (by omega) (by omega))
  have e3 : rd64 h 24 = rd64 h2 24 :=
    rd64_congr h h2 24 (fun i hi => he _ (by omega) (by omega) (by omega))
  have e4 : rd64 h 32 = rd64 h2 32 :=
    rd64_congr h h2 32 (fun i hi => he _ (by omega) (by omega) (by omega))
  have e6 : rd64 h 48 = rd64 h2 48 :=
    rd64_congr h h2 48 (fun i hi => he _ (by omega) (by omega) (by omega))
  have e7 : rd64 h 56 = rd64 h2 56 :=
    rd64_congr h h2 56 (fun i hi => he _ (by omega) (by omega) (by omega))
  have e8 : rd64 h 64 = rd64 h2 64 :=
    rd64_congr h h2 64 (fun i hi => he _ (by omega) (by omega) (by omega))
  show ({ ts := rd64 h 24, pid := (rd64 h 16 &&& 0xffffffff) % 2 ^ 32,
          tid := (rd64 h 16 >>> 32) % 2 ^ 32, cpu := (rd64 h 48 &&& 0xffffffff) % 2 ^ 32,
          ip := rd64 h 8, lin_addr := rd64 h 32, phys_addr := rd64 h 64 &&& (2 ^ 52 - 1),
          data_src := rd64 h 56, decode_str := description (rd64 h 56) 128 } : CsvLine) =
        { ts := rd64 h2 24, pid := (rd64 h2 16 &&& 0xffffffff) % 2 ^ 32,
          tid := (rd64 h2 16 >>> 32) % 2 ^ 32, cpu := (rd64 h2 48 &&& 0xffffffff) % 2 ^ 32,
          ip := rd64 h2 8, lin_addr := rd64 h2 32, phys_addr := rd64 h2 64 &&& (2 ^ 52 - 1),
          data_src := rd64 h2 56, decode_str := description (rd64 h2 56) 128 }
  rw [e1, e2, e3, e4, e6, e7, e8]

theorem cpu_loop_stopped (pg fuel : Nat) (snaps : List (Nat × Mem)) (w : Worker)
    (h : w.running = 0) : cpu_loop pg fuel snaps w = some w := by
  cases snaps with
  | nil => rfl
  | cons s rest =>
    obtain ⟨head, data⟩ := s
    simp only [cpu_loop, h, ne_eq, not_true_eq_false, if_false]

/-! ## Properties of the failure paths and of the parsed sample -/

/-- C11 as stated fails: in this ring three well-formed sample records are
followed at offset 216 by a SAMPLE record that declares 5000 bytes and does not
cross the end of the region. The drain prints four lines, reports nothing,
leaves `running` at 1 and moves the tail past the oversized record, to 5216. -/
theorem oversized_contiguous_record_consumed :
    Samples 4096 oversized_inside_ring 3 (sample_worker 0).data_tail 216 ∧
    SCRATCH_SZ < rec_len 4096 oversized_inside_ring 216 ∧
    216 + rec_len 4096 oversized_inside_ring 216 ≤ 5216 ∧
    (drain 4096 oversized_inside_ring 5216 4 (sample_worker 0)).map
        (fun r => (r.1.data_tail, r.1.csv.length, r.1.running, r.1.err)) =
      some (5216, 4, 1, []) ∧
    ¬ ∃ (w1 : Worker) (lines : List CsvLine) (log : List (Nat × Nat)),
        drain 4096 oversized_inside_ring 5216 4 (sample_worker 0) = some (w1, log) ∧
        lines.length = 3 ∧ w1.csv = (sample_worker 0).csv ++ lines ∧
        w1.running = 0 ∧ w1.data_tail = 216 := by
  have hrun : (drain 4096 oversized_inside_ring 5216 4 (sample_worker 0)).map
      (fun r => (r.1.data_tail, r.1.csv.length, r.1.running, r.1.err)) =
      some (5216, 4, 1, []) := by decide
  refine ⟨?_, by decide, by decide, hrun, ?_⟩
  · exact Samples.cons 2 0 216 ⟨by decide, by decide, by decide, by decide⟩
      (Samples.cons 1 72 216 ⟨by decide, by decide, by decide, by decide⟩
        (Samples.cons 0 144 216 ⟨by decide, by decide, by decide, by decide⟩
          (Samples.nil 216)))
  · rintro ⟨w1, lines, log, hd, _, _, _, htail⟩
    rw [hd] at hrun
    simp only [Option.map_some', Option.some.injEq, Prod.mk.injEq] at hrun
    omega

/-- C11 amended: when three well-formed sample records are followed by a
record that declares more than the scratch capacity and crosses the end of the
region, the drain prints exactly three lines, reports the oversized length,
clears `running` and breaks with the tail at the start of the oversized
record; the loop test of the worker then fails, so it returns in that state
and prints nothing more. -/
theorem oversized_wrapping_record_stops (pg : Nat) (data : Mem) (head : Nat) (w : Worker)
    (c3 fuel : Nat) (hpg : ∃ k, pg = 2 ^ k) (hhead : head < 2 ^ 64)
    (hs : Samples pg data 3 w.data_tail c3)
    (hbig : SCRATCH_SZ < rec_len pg data c3)
    (hin : c3 + rec_len pg data c3 ≤ head)
    (hwrap : ring_sz pg < c3 % ring_sz pg + rec_len pg data c3)
    (hfuel : 4 ≤ fuel) :
    ∃ (w1 : Worker) (lines : List CsvLine) (log : List (Nat × Nat)),
      drain pg data head fuel w = some (w1, log) ∧
      lines.length = 3 ∧ w1.csv = w.csv ++ lines ∧
      w1.err = w.err ++ [rec_len pg data c3] ∧ w1.running = 0 ∧
      w1.data_tail = c3 ∧ (∀ r ∈ log, r.2 ≤ c3) ∧
      ∀ (fuel2 : Nat) (snaps : List (Nat × Mem)), cpu_loop pg fuel2 snaps w1 = some w1 := by
  unfold SCRATCH_SZ at hbig
  obtain ⟨w3, lines, log, hlen, _, htail, hcsv, _, herr, hbnd, hrun⟩ :=
    drain_samples pg data head hpg hhead 3 w.data_tail c3 hs (by omega) w rfl
  have hstep := drain_iter_too_large pg data w3 hpg (by rw [htail]; exact hwrap)
    (by rw [htail]; unfold SCRATCH_SZ; exact hbig)
  rw [htail] at hstep
  obtain ⟨k, hk⟩ : ∃ k, fuel = (k + 1) + 3 := ⟨fuel - 4, by omega⟩
  have hlast := drain_succ_brk pg data head k w3
    { w3 with data_tail := c3, err := w3.err ++ [rec_len pg data c3], running := 0 }
    (by omega) hstep
  refine ⟨{ w3 with data_tail := c3, err := w3.err ++ [rec_len pg data c3], running := 0 },
    lines, log, ?_, hlen, hcsv, ?_, rfl, rfl, hbnd, ?_⟩
  · rw [hk, hrun (k + 1), hlast]
    simp
  · show w3.err ++ _ = _
    rw [herr]
  · intro fuel2 snaps
    exact cpu_loop_stopped pg fuel2 snaps _ rfl

theorem oversized_wrapping_record_stops_witness :
    (∃ k, 4096 = 2 ^ k) ∧ 35000 < 2 ^ 64 ∧
    Samples 4096 oversized_wrapping_ring 3 (sample_worker 29784).data_tail 30000 ∧
    SCRATCH_SZ < rec_len 4096 oversized_wrapping_ring 30000 ∧
    30000 + rec_len 4096 oversized_wrapping_ring 30000 ≤ 35000 ∧
    ring_sz 4096 < 30000 % ring_sz 4096 + rec_len 4096 oversized_wrapping_ring 30000 ∧
    4 ≤ 4 ∧
    ∃ (w1 : Worker) (lines : List CsvLine) (log : List (Nat × Nat)),
      drain 4096 oversized_wrapping_ring 35000 4 (sample_worker 29784) = some (w1, log) ∧
      lines.length = 3 ∧ w1.csv = (sample_worker 29784).csv ++ lines ∧
      w1.err = (sample_worker 29784).err ++ [rec_len 4096 oversized_wrapping_ring 30000] ∧
      w1.running = 0 ∧ w1.data_tail = 30000 ∧ (∀ r ∈ log, r.2 ≤ 30000) ∧
      ∀ (fuel2 : Nat) (snaps : List (Nat × Mem)), cpu_loop 4096 fuel2 snaps w1 = some w1 :=
  ⟨⟨12, by decide⟩, by decide,
    Samples.cons 2 29784 30000 ⟨by decide, by decide, by decide, by decide⟩
      (Samples.cons 1 29856 30000 ⟨by decide, by decide, by decide, by decide⟩
        (Samples.cons 0 29928 30000 ⟨by decide, by decide, by decide, by decide⟩
          (Samples.nil 30000))),
    by decide, by decide, by decide, by decide,
    oversized_wrapping_record_stops 4096 oversized_wrapping_ring 35000 (sample_worker 29784)
      30000 4 ⟨12, by decide⟩ (by decide)
      (Samples.cons 2 29784 30000 ⟨by decide, by decide, by decide, by decide⟩
        (Samples.cons 1 29856 30000 ⟨by decide, by decide, by decide, by decide⟩
          (Samples.cons 0 29928 30000 ⟨by decide, by decide, by decide, by decide⟩
            (Samples.nil 30000))))
      (by decide) (by decide) (by decide) (by decide)⟩

/-- C12 as stated fails: the record at the start of this ring is a SAMPLE that
declares 16 bytes, a payload of 8. The drain raises no failure for it: it
prints a line, whose physical address 0x44 is the byte at offset 64, past the
end of the record, and moves the tail on by 16. -/
theorem short_sample_still_parsed :
    hdr_type (offset short_sample 0) = PERF_RECORD_SAMPLE ∧
    rec_len 4096 short_sample 0 = 16 ∧
    (drain 4096 short_sample 16 1 (sample_worker 0)).map
        (fun r => (r.1.data_tail, r.1.csv.map (fun l => l.phys_addr), r.1.running, r.1.err)) =
      some (16, [0x44], 1, []) ∧
    ¬ ∃ (w1 : Worker) (log : List (Nat × Nat)),
        drain 4096 short_sample 16 1 (sample_worker 0) = some (w1, log) ∧
        w1.csv = (sample_worker 0).csv := by
  have hrun : (drain 4096 short_sample 16 1 (sample_worker 0)).map
      (fun r => (r.1.data_tail, r.1.csv.map (fun l => l.phys_addr), r.1.running, r.1.err)) =
      some (16, [0x44], 1, []) := by decide
  refine ⟨by decide, by decide, hrun, ?_⟩
  rintro ⟨w1, log, hd, hcsv⟩
  rw [hd] at hrun
  simp only [Option.map_some', Option.some.injEq, Prod.mk.injEq] at hrun
  rw [hcsv] at hrun
  exact absurd hrun.2.1 (by decide)

/-- C12 amended: for every record of kind SAMPLE whose payload is shorter than
the 64 bytes of the eight fields, in a ring that can hold a full sample
record, with its header inside the region and, when the record is read in
place, the 72 bytes from its start inside the region as well, the iteration
raises no failure. It takes the record in place when it ends inside the region
and from the scratch copy when it crosses the end; the bytes at that pointer
are the record's up to the declared length; it reads the eight 8-byte fields
at offsets 8 to 71 from that pointer, so past the declared length, prints one
line built from them, leaves `running` and the error stream alone, and moves
the tail on by the declared length. -/
theorem short_sample_parsed_without_failure (pg : Nat) (data : Mem) (w : Worker)
    (hpg : ∃ k, pg = 2 ^ k)
    (hhdr : w.data_tail % ring_sz pg + HEADER_SZ ≤ ring_sz pg)
    (htype : hdr_type (offset data (w.data_tail % ring_sz pg)) = PERF_RECORD_SAMPLE)
    (hshort : rec_len pg data w.data_tail < HEADER_SZ + 64)
    (hN : HEADER_SZ + 64 ≤ ring_sz pg)
    (hin : w.data_tail % ring_sz pg + rec_len pg data w.data_tail ≤ ring_sz pg →
      w.data_tail % ring_sz pg + (HEADER_SZ + 64) ≤ ring_sz pg) :
    ∃ (w1 : Worker) (h : Mem), drain_iter pg data w = .next w1 ∧
      hdr_size h = rec_len pg data w.data_tail ∧ hdr_size h < HEADER_SZ + 64 ∧
      (∀ i, i < rec_len pg data w.data_tail → h i = ring_view pg data w.data_tail i) ∧
      (w.data_tail % ring_sz pg + rec_len pg data w.data_tail ≤ ring_sz pg →
        h = offset data (w.data_tail % ring_sz pg) ∧ w1.scratch = w.scratch ∧
        ∀ i, i < HEADER_SZ + 64 → w.data_tail % ring_sz pg + i < ring_sz pg) ∧
      (ring_sz pg < w.data_tail % ring_sz pg + rec_len pg data w.data_tail →
        h = w1.scratch) ∧
      w1.csv = w.csv ++ [sample_line h] ∧
      ((sample_line h).ip = rd64 h 8 ∧
        (sample_line h).pid = rd64 h 16 % 2 ^ 32 ∧
        (sample_line h).tid = rd64 h 16 / 2 ^ 32 ∧
        (sample_line h).ts = rd64 h 24 ∧
        (sample_line h).lin_addr = rd64 h 32 ∧
        (sample_line h).cpu = rd64 h 48 % 2 ^ 32 ∧
        (sample_line h).data_src = rd64 h 56 ∧
        (sample_line h).phys_addr = rd64 h 64 % 2 ^ 52 ∧
        (sample_line h).decode_str = description (rd64 h 56) 128) ∧
      w1.running = w.running ∧ w1.err = w.err ∧
      w1.data_tail = (w.data_tail + rec_len pg data w.data_tail) % 2 ^ 64 := by
  unfold rec_len at hshort hin ⊢
  have ht : w.data_tail % ring_sz pg < ring_sz pg := Nat.mod_lt _ (ring_sz_pos pg hpg)
  have hcap : hdr_size (offset data (w.data_tail % ring_sz pg)) ≤ SCRATCH_SZ := by
    unfold HEADER_SZ at hshort
    unfold SCRATCH_SZ
    omega
  by_cases hfit : w.data_tail % ring_sz pg + hdr_size (offset data (w.data_tail % ring_sz pg))
      ≤ ring_sz pg
  · have hloc := locate_contiguous pg data w.scratch w.data_tail hpg hfit
    have hreg := hin hfit
    refine ⟨consume (offset data (w.data_tail % ring_sz pg)) w,
      offset data (w.data_tail % ring_sz pg), ?_, rfl, hshort, ?_, ?_, ?_, ?_,
      sample_line_fields _, rfl, rfl, rfl⟩
    · unfold drain_iter
      rw [hloc]
    · intro i hi
      have e : (w.data_tail % ring_sz pg + i) % ring_sz pg = w.data_tail % ring_sz pg + i :=
        Nat.mod_eq_of_lt (by omega)
      unfold ring_view offset
      rw [e]
    · intro _
      refine ⟨rfl, rfl, ?_⟩
      intro i hi
      omega
    · intro hwrap
      omega
    · exact consume_csv_sample _ _ htype
  · have hloc := locate_wrapped pg data w.scratch w.data_tail hpg (by omega) hcap
    have hsize := scratch_hdr_size w.scratch data (ring_sz pg) (w.data_tail % ring_sz pg)
      (hdr_size (offset data (w.data_tail % ring_sz pg)) -
        (ring_sz pg - w.data_tail % ring_sz pg)) hhdr
    have hty := scratch_hdr_type w.scratch data (ring_sz pg) (w.data_tail % ring_sz pg)
      (hdr_size (offset data (w.data_tail % ring_sz pg)) -
        (ring_sz pg - w.data_tail % ring_sz pg)) hhdr
    have hbytes : ∀ i, i < hdr_size (offset data (w.data_tail % ring_sz pg)) →
        memcpy (memcpy w.scratch 0 data (w.data_tail % ring_sz pg)
          (ring_sz pg - w.data_tail % ring_sz pg)) (ring_sz pg - w.data_tail % ring_sz pg)
          data 0 (hdr_size (offset data (w.data_tail % ring_sz pg)) -
            (ring_sz pg - w.data_tail % ring_sz pg)) i = ring_view pg data w.data_tail i :=
      fun i hi => scratch_bytes w.scratch data (ring_sz pg) _ _ i ht (by omega) (by omega) hi
    generalize memcpy (memcpy w.scratch 0 data (w.data_tail % ring_sz pg)
      (ring_sz pg - w.data_tail % ring_sz pg)) (ring_sz pg - w.data_tail % ring_sz pg) data 0
      (hdr_size (offset data (w.data_tail % ring_sz pg)) -
        (ring_sz pg - w.data_tail % ring_sz pg)) = sc at hloc hsize hty hbytes
    refine ⟨consume sc { w with scratch := sc }, sc, ?_, hsize, by rw [hsize]; exact hshort,
      hbytes, ?_, ?_, ?_, sample_line_fields _, rfl, rfl, ?_⟩
    · unfold drain_iter
      rw [hloc]
    · intro hc
      exact absurd hc hfit
    · intro _
      rfl
    · exact consume_csv_sample _ _ (hty.trans htype)
    · show (w.data_tail + hdr_size sc) % 2 ^ 64 = _
      rw [hsize]

theorem short_sample_parsed_without_failure_witness :
    (∃ k, 4096 = 2 ^ k) ∧
    (sample_worker 0).data_tail % ring_sz 4096 + HEADER_SZ ≤ ring_sz 4096 ∧
    hdr_type (offset short_sample ((sample_worker 0).data_tail % ring_sz 4096)) =
      PERF_RECORD_SAMPLE ∧
    rec_len 4096 short_sample (sample_worker 0).data_tail < HEADER_SZ + 64 ∧
    HEADER_SZ + 64 ≤ ring_sz 4096 ∧
    ((sample_worker 0).data_tail % ring_sz 4096 +
        rec_len 4096 short_sample (sample_worker 0).data_tail ≤ ring_sz 4096 →
      (sample_worker 0).data_tail % ring_sz 4096 + (HEADER_SZ + 64) ≤ ring_sz 4096) ∧
    ∃ (w1 : Worker) (h : Mem), drain_iter 4096 short_sample (sample_worker 0) = .next w1 ∧
      hdr_size h = rec_len 4096 short_sample (sample_worker 0).data_tail ∧
      hdr_size h < HEADER_SZ + 64 ∧
      (∀ i, i < rec_len 4096 short_sample (sample_worker 0).data_tail →
        h i = ring_view 4096 short_sample (sample_worker 0).data_tail i) ∧
      ((sample_worker 0).data_tail % ring_sz 4096 +
          rec_len 4096 short_sample (sample_worker 0).data_tail ≤ ring_sz 4096 →
        h = offset short_sample ((sample_worker 0).data_tail % ring_sz 4096) ∧
        w1.scratch = (sample_worker 0).scratch ∧
        ∀ i, i < HEADER_SZ + 64 →
          (sample_worker 0).data_tail % ring_sz 4096 + i < ring_sz 4096) ∧
      (ring_sz 4096 < (sample_worker 0).data_tail % ring_sz 4096 +
          rec_len 4096 short_sample (sample_worker 0).data_tail →
        h = w1.scratch) ∧
      w1.csv = (sample_worker 0).csv ++ [sample_line h] ∧
      ((sample_line h).ip = rd64 h 8 ∧
        (sample_line h).pid = rd64 h 16 % 2 ^ 32 ∧
        (sample_line h).tid = rd64 h 16 / 2 ^ 32 ∧
        (sample_line h).ts = rd64 h 24 ∧
        (sample_line h).lin_addr = rd64 h 32 ∧
        (sample_line h).cpu = rd64 h 48 % 2 ^ 32 ∧
        (sample_line h).data_src = rd64 h 56 ∧
        (sample_line h).phys_addr = rd64 h 64 % 2 ^ 52 ∧
        (sample_line h).decode_str = description (rd64 h 56) 128) ∧
      w1.running = (sample_worker 0).running ∧ w1.err = (sample_worker 0).err ∧
      w1.data_tail =
        ((sample_worker 0).data_tail + rec_len 4096 short_sample (sample_worker 0).data_tail) %
          2 ^ 64 :=
  ⟨⟨12, by decide⟩, by decide, by decide, by decide, by decide, fun _ => by decide,
    short_sample_parsed_without_failure 4096 short_sample (sample_worker 0) ⟨12, by decide⟩
      (by decide) (by decide) (by decide) (by decide) (fun _ => by decide)⟩

/-- C13: for a SAMPLE record with a 64-byte payload, lying in a ring that can
hold it with its header inside the region, the iteration prints one line built
from the record's eight consecutive 8-byte fields at payload offsets 0 to 56:
the instruction pointer is field 0, pid and tid the low and high 32 bits of
field 1, the timestamp field 2, the linear address field 3, cpu the low 32
bits of field 5, the classification code field 6 unchanged, with its
description, and the physical address field 7 modulo 2^52. The stream id,
field 4, is not printed: the line is the same whatever the bytes at record
offsets 40 to 47 are. -/
theorem sample_fields_emitted (pg : Nat) (data : Mem) (w : Worker)
    (hpg : ∃ k, pg = 2 ^ k)
    (hhdr : w.data_tail % ring_sz pg + HEADER_SZ ≤ ring_sz pg)
    (htype : hdr_type (offset data (w.data_tail % ring_sz pg)) = PERF_RECORD_SAMPLE)
    (hsize : rec_len pg data w.data_tail = HEADER_SZ + 64)
    (hN : HEADER_SZ + 64 ≤ ring_sz pg) :
    ∃ (w1 : Worker) (line : CsvLine), drain_iter pg data w = .next w1 ∧
      w1.csv = w.csv ++ [line] ∧
      line.ip = record_field pg data w.data_tail 0 ∧
      line.pid = record_field pg data w.data_tail 1 % 2 ^ 32 ∧
      line.tid = record_field pg data w.data_tail 1 / 2 ^ 32 ∧
      line.ts = record_field pg data w.data_tail 2 ∧
      line.lin_addr = record_field pg data w.data_tail 3 ∧
      line.cpu = record_field pg data w.data_tail 5 % 2 ^ 32 ∧
      line.data_src = record_field pg data w.data_tail 6 ∧
      line.phys_addr = record_field pg data w.data_tail 7 % 2 ^ 52 ∧
      line.decode_str = description (record_field pg data w.data_tail 6) 128 ∧
      (∀ r2 : Mem, (∀ i, i < 40 ∨ 48 ≤ i → r2 i = ring_view pg data w.data_tail i) →
        sample_line r2 = line) ∧
      w1.data_tail = (w.data_tail + (HEADER_SZ + 64)) % 2 ^ 64 := by
  have hs : sample_at pg data w.data_tail :=
    ⟨hhdr, htype, by rw [hsize], by rw [hsize]; decide⟩
  obtain ⟨w1, h, hstep, htail, hcsv, _, _, hbytes⟩ := drain_iter_sample pg data w hpg hs
  rw [hsize] at hbytes htail
  have hview : sample_line h = sample_line (ring_view pg data w.data_tail) :=
    sample_line_congr h _ (fun i _ hi _ => hbytes hN i (by unfold HEADER_SZ; omega))
  obtain ⟨f0, f1, f2, f3, f4, f5, f6, f7, f8⟩ :=
    sample_line_fields (ring_view pg data w.data_tail)
  refine ⟨w1, sample_line (ring_view pg data w.data_tail), hstep, ?_, f0, f1, f2, f3, f4, f5,
    f6, f7, f8, ?_, htail⟩
  · rw [hcsv, hview]
  · intro r2 hr2
    exact sample_line_congr r2 _ (fun i _ _ hi => hr2 i hi)

theorem sample_fields_emitted_witness :
    (∃ k, 4096 = 2 ^ k) ∧
    (sample_worker 32776).data_tail % ring_sz 4096 + HEADER_SZ ≤ ring_sz 4096 ∧
    hdr_type (offset sample_ring ((sample_worker 32776).data_tail % ring_sz 4096)) =
      PERF_RECORD_SAMPLE ∧
    rec_len 4096 sample_ring (sample_worker 32776).data_tail = HEADER_SZ + 64 ∧
    HEADER_SZ + 64 ≤ ring_sz 4096 ∧
    ∃ (w1 : Worker) (line : CsvLine),
      drain_iter 4096 sample_ring (sample_worker 32776) = .next w1 ∧
      w1.csv = (sample_worker 32776).csv ++ [line] ∧
      line.ip = record_field 4096 sample_ring (sample_worker 32776).data_tail 0 ∧
      line.pid = record_field 4096 sample_ring (sample_worker 32776).data_tail 1 % 2 ^ 32 ∧
      line.tid = record_field 4096 sample_ring (sample_worker 32776).data_tail 1 / 2 ^ 32 ∧
      line.ts = record_field 4096 sample_ring (sample_worker 32776).data_tail 2 ∧
      line.lin_addr = record_field 4096 sample_ring (sample_worker 32776).data_tail 3 ∧
      line.cpu = record_field 4096 sample_ring (sample_worker 32776).data_tail 5 % 2 ^ 32 ∧
      line.data_src = record_field 4096 sample_ring (sample_worker 32776).data_tail 6 ∧
      line.phys_addr =
        record_field 4096 sample_ring (sample_worker 32776).data_tail 7 % 2 ^ 52 ∧
      line.decode_str =
        description (record_field 4096 sample_ring (sample_worker 32776).data_tail 6) 128 ∧
      (∀ r2 : Mem,
        (∀ i, i < 40 ∨ 48 ≤ i →
          r2 i = ring_view 4096 sample_ring (sample_worker 32776).data_tail i) →
        sample_line r2 = line) ∧
      w1.data_tail = ((sample_worker 32776).data_tail + (HEADER_SZ + 64)) % 2 ^ 64 :=
  ⟨⟨12, by decide⟩, by decide, by decide, by decide, by decide,
    sample_fields_emitted 4096 sample_ring (sample_worker 32776) ⟨12, by decide⟩
      (by decide) (by decide) (by decide) (by decide)⟩

/-- C14 as stated fails: the step that reports the oversized record at offset
30000 of this ring breaks out of the loop with `running` cleared, while the
worker entered the step with `running` at 1; another worker of the process
that reads the flag afterwards returns at its loop test without draining. -/
theorem too_large_clears_shared_flag :
    (sample_worker 30000).running = 1 ∧
    drain_iter 4096 oversized_wrapping_ring (sample_worker 30000) =
      .brk { sample_worker 30000 with err := [5000], running := 0 } ∧
    (∀ (other : Worker) (fuel : Nat) (snaps : List (Nat × Mem)),
      cpu_loop 4096 fuel snaps
          (share { sample_worker 30000 with err := [5000], running := 0 } other) =
        some (share { sample_worker 30000 with err := [5000], running := 0 } other)) ∧
    ¬ ∀ (pg : Nat) (data : Mem) (w w1 : Worker),
        drain_iter pg data w = .brk w1 → w1.running = w.running := by
  have hstep : drain_iter 4096 oversized_wrapping_ring (sample_worker 30000) =
      .brk { sample_worker 30000 with err := [5000], running := 0 } := rfl
  refine ⟨rfl, hstep, ?_, ?_⟩
  · intro other fuel snaps
    exact cpu_loop_stopped 4096 fuel snaps _ rfl
  · intro hall
    have h := hall 4096 oversized_wrapping_ring (sample_worker 30000) _ hstep
    exact absurd h (by decide)

theorem locate_too_large_size (pg : Nat) (data scratch : Mem) (tail size : Nat)
    (h : locate pg data scratch tail = .too_large size) : SCRATCH_SZ < size := by
  unfold locate at h
  simp only at h
  split at h
  · split at h
    · rename_i hbig
      rw [← Located.too_large.inj h]
      exact hbig
    · exact Located.noConfusion h
  · exact Located.noConfusion h

/-- C14 amended: the step that reports a record as too large sets the
process-wide flag `running` to 0 and appends the reported length to the error
stream, leaving the tail and the printed lines as they were; every worker of
the process that reads the flag afterwards, the failing one and any other,
finds its loop test false and returns without draining. -/
theorem too_large_stops_every_worker (pg : Nat) (data : Mem) (w w1 : Worker)
    (hstep : drain_iter pg data w = .brk w1) :
    w1.running = 0 ∧ (∃ size, SCRATCH_SZ < size ∧ w1.err = w.err ++ [size]) ∧
    w1.data_tail = w.data_tail ∧ w1.csv = w.csv ∧
    (∀ (pg2 fuel : Nat) (snaps : List (Nat × Mem)), cpu_loop pg2 fuel snaps w1 = some w1) ∧
    (∀ (other : Worker) (pg2 fuel : Nat) (snaps : List (Nat × Mem)),
      cpu_loop pg2 fuel snaps (share w1 other) = some (share w1 other)) := by
  unfold drain_iter at hstep
  cases hloc : locate pg data w.scratch w.data_tail with
  | record h sc =>
    rw [hloc] at hstep
    exact Step.noConfusion hstep
  | too_large size =>
    rw [hloc] at hstep
    have hw1 : w1 = { w with err := w.err ++ [size], running := 0 } :=
      (Step.brk.inj hstep).symm
    subst hw1
    refine ⟨rfl, ⟨size, locate_too_large_size pg data w.scratch w.data_tail size hloc, rfl⟩,
      rfl, rfl, ?_, ?_⟩
    · intro pg2 fuel snaps
      exact cpu_loop_stopped pg2 fuel snaps _ rfl
    · intro other pg2 fuel snaps
      exact cpu_loop_stopped pg2 fuel snaps _ rfl

theorem too_large_stops_every_worker_witness :
    drain_iter 4096 oversized_wrapping_ring (sample_worker 30000) =
      .brk { sample_worker 30000 with err := [5000], running := 0 } ∧
    (({ sample_worker 30000 with err := [5000], running := 0 } : Worker).running = 0 ∧
    (∃ size, SCRATCH_SZ < size ∧
      ({ sample_worker 30000 with err := [5000], running := 0 } : Worker).err =
        (sample_worker 30000).err ++ [size]) ∧
    ({ sample_worker 30000 with err := [5000], running := 0 } : Worker).data_tail =
      (sample_worker 30000).data_tail ∧
    ({ sample_worker 30000 with err := [5000], running := 0 } : Worker).csv =
      (sample_worker 30000).csv ∧
    (∀ (pg2 fuel : Nat) (snaps : List (Nat × Mem)),
      cpu_loop pg2 fuel snaps { sample_worker 30000 with err := [5000], running := 0 } =
        some { sample_worker 30000 with err := [5000], running := 0 }) ∧
    (∀ (other : Worker) (pg2 fuel : Nat) (snaps : List (Nat × Mem)),
      cpu_loop pg2 fuel snaps
          (share { sample_worker 30000 with err := [5000], running := 0 } other) =
        some (share { sample_worker 30000 with err := [5000], running := 0 } other))) :=
  ⟨rfl, too_large_stops_every_worker 4096 oversized_wrapping_ring (sample_worker 30000)
    { sample_worker 30000 with err := [5000], running := 0 } rfl⟩

end IBS
